import Mathlib

/-!
# DGUS serial display driver (`dgus.c`, `dgus.h`)

A shallow embedding of the frame construction and command encoders of the
DWIN/DGUS serial display driver, together with theorems about the frames
handed to the injected transport.

Modelling conventions

* A byte is a `Nat` below 256; a memory object or buffer is a `List Nat`.
* `uint8_t`/`uint16_t`/`uint32_t`/`uint64_t` values are `Nat`, signed values are
  `Int`; the C conversions are written out as explicit `%`.
* An indexed access outside its array has no defined result in C; here it
  makes the enclosing function return `none`.
* The three function pointers of `DGUS_Display_t` are functions on an abstract
  world `W`: a call through a pointer applies the field to the current world.
  The callbacks are assumed not to touch the handle itself.
* The source takes the address of a local integer (`&data`) and reads its
  bytes; what those bytes are depends on the byte order of the host, which is
  therefore an explicit parameter `host`.
-/

set_option linter.unusedVariables false

namespace DGUS

/-! ## Host memory representation -/

/-- Storage byte order of the machine the driver is compiled for. -/
inductive Endian where
  | little
  | big
  deriving DecidableEq, Repr

/-- The `n` low-order bytes of `v`, least significant first. -/
def leBytes : Nat → Nat → List Nat
  | 0, _ => []
  | n + 1, v => (v % 256) :: leBytes n (v / 256)

/-- The `n` low-order bytes of `v`, most significant first. -/
def beBytes (n v : Nat) : List Nat := (leBytes n v).reverse

/-- Value of a byte sequence read least significant byte first. -/
def ofLeBytes : List Nat → Nat
  | [] => 0
  | b :: bs => b + 256 * ofLeBytes bs

/-- In-memory bytes (lowest address first) of an `n`-byte unsigned object holding `v`. -/
def nativeBytes (host : Endian) (n v : Nat) : List Nat :=
  match host with
  | Endian.little => leBytes n v
  | Endian.big => beBytes n v

/-- Unsigned value of an object whose in-memory bytes are `bs`. -/
def ofNativeBytes (host : Endian) (bs : List Nat) : Nat :=
  match host with
  | Endian.little => ofLeBytes bs
  | Endian.big => ofLeBytes bs.reverse

/-- Conversion of a signed value to the unsigned type of `n` bytes (C integer conversion). -/
def toUnsigned (n : Nat) (x : Int) : Nat := (x % (2 ^ (8 * n) : Int)).toNat

/-- Two's complement reading of an `n`-byte unsigned pattern. -/
def toSigned (n : Nat) (u : Nat) : Int :=
  if u < 2 ^ (8 * n - 1) then (u : Int) else (u : Int) - (2 ^ (8 * n) : Int)

/-- In-memory bytes of an `n`-byte signed (two's complement) object holding `x`. -/
def nativeBytesInt (host : Endian) (n : Nat) (x : Int) : List Nat :=
  nativeBytes host n (toUnsigned n x)

/-- Signed value of an object whose in-memory bytes are `bs`. -/
def ofNativeBytesInt (host : Endian) (bs : List Nat) : Int :=
  toSigned bs.length (ofNativeBytes host bs)

/-! ## Buffers -/

/-- Store to `buf[i]` of a `uint8_t` array: the value is converted to a byte. -/
def writeByte (buf : List Nat) (i : Nat) (v : Nat) : Option (List Nat) :=
  if i < buf.length then some (buf.set i (v % 256)) else none

/-- Load of `*((uint8_t *)data + i)` with a C `int` index. -/
def readByte (mem : List Nat) (i : Int) : Option Nat :=
  if 0 ≤ i then mem.get? i.toNat else none

/-! ## The session handle (`DGUS_Display_t`) -/

/-- The handle of `dgus.h`: model string, cached page id and the three injected functions. -/
structure DGUS_Display_t (W : Type) where
  model : String
  picid : Nat
  DGUS_SerialSend : List Nat → W → W
  DGUS_SerialReceive : Nat → W → List Nat × W
  DGUS_DelyMs : Nat → W → W

/-! ## Frame builder -/

/-- The `for (int i = 0; i < size - 6; i++)` loop of `_JoinDataFrames`, started at `i`.
The first argument bounds the number of loop tests. -/
def joinLoop (data : List Nat) (size : Nat) : Nat → Nat → List Nat → Option (List Nat)
  | 0, _, _ => none
  | fuel + 1, i, tx_data =>
    if (i : Int) < (size : Int) - 6 then
      match readByte data (((size : Int) - 7) - (i : Int)) with
      | none => none
      | some b =>
        match writeByte tx_data (i + 6) b with
        | none => none
        | some tx => joinLoop data size fuel (i + 1) tx
    else some tx_data

/-- The function `_JoinDataFrames(tx_data, addr, data, size)`; the result is the buffer
`tx_data` after the call. `size` is a `uint8_t`, so 256 loop tests always suffice. -/
def _JoinDataFrames (tx_data : List Nat) (addr : Nat) (data : List Nat) (size : Nat) :
    Option (List Nat) := do
  let tx ← writeByte tx_data 0 0x5A
  let tx ← writeByte tx 1 0xA5
  let tx ← writeByte tx 2 (((size : Int) - 3) % 256).toNat
  let tx ← writeByte tx 3 0x82
  let tx ← writeByte tx 4 ((addr >>> 8) &&& 0xFF)
  let tx ← writeByte tx 5 (addr &&& 0xFF)
  joinLoop data size 256 0 tx

/-! ## The frame builder with an access log -/

/-- One indexed access made by `_JoinDataFrames`: a load `*((uint8_t *)data + index)` or a
store `tx_data[index] = ...`. -/
inductive Access where
  | load (index : Int)
  | store (index : Nat)
  deriving DecidableEq, Repr

/-- The loop of `_JoinDataFrames` as in `joinLoop`, which in addition appends to `log`
the index of every load and of every store, in program order. -/
def joinLoopTraced (data : List Nat) (size : Nat) :
    Nat → Nat → List Nat → List Access → Option (List Nat × List Access)
  | 0, _, _, _ => none
  | fuel + 1, i, tx_data, log =>
    if (i : Int) < (size : Int) - 6 then
      match readByte data (((size : Int) - 7) - (i : Int)) with
      | none => none
      | some b =>
        match writeByte tx_data (i + 6) b with
        | none => none
        | some tx =>
          joinLoopTraced data size fuel (i + 1) tx
            (log ++ [Access.load (((size : Int) - 7) - (i : Int)), Access.store (i + 6)])
    else some (tx_data, log)

/-- The function `_JoinDataFrames` as above, returning the buffer together with the log of
its indexed accesses. -/
def _JoinDataFramesTraced (tx_data : List Nat) (addr : Nat) (data : List Nat) (size : Nat) :
    Option (List Nat × List Access) := do
  let tx ← writeByte tx_data 0 0x5A
  let tx ← writeByte tx 1 0xA5
  let tx ← writeByte tx 2 (((size : Int) - 3) % 256).toNat
  let tx ← writeByte tx 3 0x82
  let tx ← writeByte tx 4 ((addr >>> 8) &&& 0xFF)
  let tx ← writeByte tx 5 (addr &&& 0xFF)
  joinLoopTraced data size 256 0 tx
    [Access.store 0, Access.store 1, Access.store 2, Access.store 3, Access.store 4,
      Access.store 5]

/-- The load indices of a log, in order. -/
def loads (log : List Access) : List Int :=
  log.filterMap fun a => match a with
    | Access.load i => some i
    | Access.store _ => none

/-- The store indices of a log, in order. -/
def stores (log : List Access) : List Nat :=
  log.filterMap fun a => match a with
    | Access.load _ => none
    | Access.store i => some i

/-- A local `uint8_t tx_data[n]`; its initial contents are indeterminate in C and are
taken to be zero here (every cell is overwritten before the buffer is sent). -/
def localBuffer (n : Nat) : List Nat := List.replicate n 0

/-- The function `_Send2Bytes(dgus, addr, data)` with `uint16_t data`. -/
def _Send2Bytes {W : Type} (host : Endian) (dgus : DGUS_Display_t W) (addr data : Nat)
    (w : W) : Option (DGUS_Display_t W × W) :=
  match _JoinDataFrames (localBuffer 8) addr (nativeBytes host 2 data) 8 with
  | none => none
  | some tx_data => some (dgus, dgus.DGUS_SerialSend (tx_data.take 8) w)

/-- The function `_Send4Bytes(dgus, addr, data)` with `uint32_t data`. -/
def _Send4Bytes {W : Type} (host : Endian) (dgus : DGUS_Display_t W) (addr data : Nat)
    (w : W) : Option (DGUS_Display_t W × W) :=
  match _JoinDataFrames (localBuffer 10) addr (nativeBytes host 4 data) 10 with
  | none => none
  | some tx_data => some (dgus, dgus.DGUS_SerialSend (tx_data.take 10) w)

/-- The function `_Send8Bytes(dgus, addr, data)` with `uint64_t data`. -/
def _Send8Bytes {W : Type} (host : Endian) (dgus : DGUS_Display_t W) (addr data : Nat)
    (w : W) : Option (DGUS_Display_t W × W) :=
  match _JoinDataFrames (localBuffer 14) addr (nativeBytes host 8 data) 14 with
  | none => none
  | some tx_data => some (dgus, dgus.DGUS_SerialSend (tx_data.take 14) w)

/-- The function `_SendFloat(dgus, addr, data)`. The `float` argument is given by its
IEEE-754 binary32 bit pattern; the function only copies the bytes of the object. -/
def _SendFloat {W : Type} (host : Endian) (dgus : DGUS_Display_t W) (addr data : Nat)
    (w : W) : Option (DGUS_Display_t W × W) :=
  match _JoinDataFrames (localBuffer 10) addr (nativeBytes host 4 data) 10 with
  | none => none
  | some tx_data => some (dgus, dgus.DGUS_SerialSend (tx_data.take 10) w)

/-- The function `_SendDouble(dgus, addr, data)`. The `double` argument is given by its
IEEE-754 binary64 bit pattern. -/
def _SendDouble {W : Type} (host : Endian) (dgus : DGUS_Display_t W) (addr data : Nat)
    (w : W) : Option (DGUS_Display_t W × W) :=
  match _JoinDataFrames (localBuffer 14) addr (nativeBytes host 8 data) 14 with
  | none => none
  | some tx_data => some (dgus, dgus.DGUS_SerialSend (tx_data.take 14) w)

/-! ## System variable interface -/

/-- The function `DGUS_Reset(dgus)`. -/
def DGUS_Reset {W : Type} (dgus : DGUS_Display_t W) (w : W) : DGUS_Display_t W × W :=
  let Reset : List Nat := [0x5A, 0xA5, 0x07, 0x82, 0x00, 0x04, 0x55, 0xAA, 0x5A, 0xA5]
  let w := dgus.DGUS_SerialSend (Reset.take 10) w
  let w := dgus.DGUS_DelyMs 3000 w
  (dgus, w)

/-- The function `DGUS_PicSet(dgus, picid)` with `uint16_t picid`. -/
def DGUS_PicSet {W : Type} (dgus : DGUS_Display_t W) (picid : Nat) (w : W) :
    DGUS_Display_t W × W :=
  let tx_data : List Nat :=
    [0x5A, 0xA5, 0x07, 0x82, 0x00, 0x84, 0x5A, 0x01,
      ((picid >>> 8) &&& 0xFF) % 256, (picid &&& 0xFF) % 256]
  let dgus := { dgus with picid := picid }
  (dgus, dgus.DGUS_SerialSend (tx_data.take 10) w)

/-! ## Variable icon, artistic variable, icon rotation, data variables -/

/-- The function `VarIconSetID(dgus, vp_addr, id)`. -/
def VarIconSetID {W : Type} (host : Endian) (dgus : DGUS_Display_t W) (vp_addr id : Nat)
    (w : W) : Option (DGUS_Display_t W × W) :=
  _Send2Bytes host dgus vp_addr id w

/-- The function `ArtVarSetInt16(dgus, vp_addr, data)` with `int16_t data`, converted to
the `uint16_t` parameter of `_Send2Bytes`. -/
def ArtVarSetInt16 {W : Type} (host : Endian) (dgus : DGUS_Display_t W) (vp_addr : Nat)
    (data : Int) (w : W) : Option (DGUS_Display_t W × W) :=
  _Send2Bytes host dgus vp_addr (toUnsigned 2 data) w

/-- The function `ArtVarSetICON0(dgus, sp_addr, icon_id)`; the sum `sp_addr + 0x03` is
converted to the `uint16_t` parameter of `_Send2Bytes`. -/
def ArtVarSetICON0 {W : Type} (host : Endian) (dgus : DGUS_Display_t W)
    (sp_addr icon_id : Nat) (w : W) : Option (DGUS_Display_t W × W) :=
  _Send2Bytes host dgus ((sp_addr + 0x03) % 65536) icon_id w

/-- The function `RatIconSetAngle(dgus, vp_addr, angle)`. -/
def RatIconSetAngle {W : Type} (host : Endian) (dgus : DGUS_Display_t W)
    (vp_addr angle : Nat) (w : W) : Option (DGUS_Display_t W × W) :=
  _Send2Bytes host dgus vp_addr angle w

/-- The function `DataVarSetInt16(dgus, vp_addr, data)` with `int16_t data`. -/
def DataVarSetInt16 {W : Type} (host : Endian) (dgus : DGUS_Display_t W) (vp_addr : Nat)
    (data : Int) (w : W) : Option (DGUS_Display_t W × W) :=
  _Send2Bytes host dgus vp_addr (toUnsigned 2 data) w

/-- The function `DataVarSetInt32(dgus, vp_addr, data)` with `int32_t data`. -/
def DataVarSetInt32 {W : Type} (host : Endian) (dgus : DGUS_Display_t W) (vp_addr : Nat)
    (data : Int) (w : W) : Option (DGUS_Display_t W × W) :=
  _Send4Bytes host dgus vp_addr (toUnsigned 4 data) w

/-- The function `DataVarSetInt64(dgus, vp_addr, data)` with `int64_t data`. -/
def DataVarSetInt64 {W : Type} (host : Endian) (dgus : DGUS_Display_t W) (vp_addr : Nat)
    (data : Int) (w : W) : Option (DGUS_Display_t W × W) :=
  _Send8Bytes host dgus vp_addr (toUnsigned 8 data) w

/-- The function `DataVarSetFloat(dgus, vp_addr, data)`, `data` given by its bit pattern. -/
def DataVarSetFloat {W : Type} (host : Endian) (dgus : DGUS_Display_t W)
    (vp_addr data : Nat) (w : W) : Option (DGUS_Display_t W × W) :=
  _SendFloat host dgus vp_addr data w

/-- The function `DataVarSetDouble(dgus, vp_addr, data)`, `data` given by its bit pattern. -/
def DataVarSetDouble {W : Type} (host : Endian) (dgus : DGUS_Display_t W)
    (vp_addr data : Nat) (w : W) : Option (DGUS_Display_t W × W) :=
  _SendDouble host dgus vp_addr data w

/-! ## Text display -/

/-- The function `TextDisplaySetGB2312(dgus, vp_addr, textcode, len)` with `uint16_t len`.
`textcode` is the memory the pointer refers to; the second send is handed its first `len`
bytes, which must exist. -/
def TextDisplaySetGB2312 {W : Type} (dgus : DGUS_Display_t W) (vp_addr : Nat)
    (textcode : List Nat) (len : Nat) (w : W) : Option (DGUS_Display_t W × W) :=
  let tx_data : List Nat :=
    [0x5A, 0xA5, (len + 3) % 256, 0x82,
      ((vp_addr >>> 8) &&& 0xFF) % 256, (vp_addr &&& 0xFF) % 256]
  let w := dgus.DGUS_SerialSend (tx_data.take 6) w
  if len ≤ textcode.length then
    some (dgus, dgus.DGUS_SerialSend (textcode.take len) w)
  else none

/-- The function `TextDisplaySetColor(dgus, sp_addr, color)`. -/
def TextDisplaySetColor {W : Type} (host : Endian) (dgus : DGUS_Display_t W)
    (sp_addr color : Nat) (w : W) : Option (DGUS_Display_t W × W) :=
  _Send2Bytes host dgus ((sp_addr + 0x03) % 65536) color w

/-- The function `TextDisplaySetFontDots(dgus, sp_addr, FontDots)`. -/
def TextDisplaySetFontDots {W : Type} (host : Endian) (dgus : DGUS_Display_t W)
    (sp_addr FontDots : Nat) (w : W) : Option (DGUS_Display_t W × W) :=
  _Send2Bytes host dgus ((sp_addr + 0x0A) % 65536) FontDots w

/-! ## Buzzer -/

/-- The function `BuzzerSet(dgus, mstime)` with `uint16_t mstime`. -/
def BuzzerSet {W : Type} (host : Endian) (dgus : DGUS_Display_t W) (mstime : Nat)
    (w : W) : Option (DGUS_Display_t W × W) :=
  _Send2Bytes host dgus 0x00A0 (mstime >>> 3) w

/-! ## A recording transport -/

/-- One call into the injected transport. -/
inductive Event where
  | send (bytes : List Nat)
  | receive (size : Nat)
  | delay (ms : Nat)
  deriving DecidableEq, Repr

/-- A session whose bindings append what they are called with to a log, oldest first. -/
def recorder (model : String) (picid : Nat) : DGUS_Display_t (List Event) where
  model := model
  picid := picid
  DGUS_SerialSend := fun bytes log => log ++ [Event.send bytes]
  DGUS_SerialReceive := fun size log => ([], log ++ [Event.receive size])
  DGUS_DelyMs := fun ms log => log ++ [Event.delay ms]

/-- The log a computation leaves behind, if it returns. -/
def logOf {W : Type} (r : Option (DGUS_Display_t W × W)) : Option W := r.map Prod.snd

/-! ## Auxiliary facts about bytes and representations -/

theorem and_255_mod (x : Nat) : (x &&& 255) % 256 = x &&& 255 :=
  Nat.mod_eq_of_lt (Nat.lt_of_le_of_lt Nat.and_le_right (by decide))

theorem leBytes_length (n v : Nat) : (leBytes n v).length = n := by
  induction n generalizing v with
  | zero => rfl
  | succ k ih => simp [leBytes, ih]

theorem nativeBytes_length (host : Endian) (n v : Nat) :
    (nativeBytes host n v).length = n := by
  cases host <;> simp [nativeBytes, beBytes, leBytes_length]

theorem ofLeBytes_leBytes (n v : Nat) : ofLeBytes (leBytes n v) = v % 256 ^ n := by
  induction n generalizing v with
  | zero => simp [leBytes, ofLeBytes, Nat.mod_one]
  | succ k ih =>
    simp only [leBytes, ofLeBytes, ih]
    rw [pow_succ, Nat.mul_comm (256 ^ k) 256, Nat.mod_mul]

theorem ofNativeBytes_nativeBytes (host : Endian) (n v : Nat) :
    ofNativeBytes host (nativeBytes host n v) = v % 256 ^ n := by
  cases host <;> simp [ofNativeBytes, nativeBytes, beBytes, ofLeBytes_leBytes]

theorem toSigned_toUnsigned_two (x : Int) (hlo : -32768 ≤ x) (hhi : x ≤ 32767) :
    toSigned 2 (toUnsigned 2 x % 256 ^ 2) = x := by
  unfold toSigned toUnsigned
  norm_num
  omega

theorem toSigned_toUnsigned_four (x : Int) (hlo : -2147483648 ≤ x) (hhi : x ≤ 2147483647) :
    toSigned 4 (toUnsigned 4 x % 256 ^ 4) = x := by
  unfold toSigned toUnsigned
  norm_num
  omega

theorem toSigned_toUnsigned_eight (x : Int) (hlo : -9223372036854775808 ≤ x)
    (hhi : x ≤ 9223372036854775807) :
    toSigned 8 (toUnsigned 8 x % 256 ^ 8) = x := by
  unfold toSigned toUnsigned
  norm_num
  omega

/-! ## What the frame builder leaves in the buffer, for the three payload widths -/

theorem joinDataFrames_two (host : Endian) (addr data : Nat) :
    _JoinDataFrames (localBuffer 8) addr (nativeBytes host 2 data) 8 =
      some ([0x5A, 0xA5, 5, 0x82, (addr >>> 8) &&& 0xFF, addr &&& 0xFF]
        ++ (nativeBytes host 2 data).reverse) := by
  cases host <;>
  simp [_JoinDataFrames, joinLoop, localBuffer, nativeBytes, leBytes, beBytes, writeByte,
    readByte, and_255_mod, List.replicate]

theorem joinDataFrames_four (host : Endian) (addr data : Nat) :
    _JoinDataFrames (localBuffer 10) addr (nativeBytes host 4 data) 10 =
      some ([0x5A, 0xA5, 7, 0x82, (addr >>> 8) &&& 0xFF, addr &&& 0xFF]
        ++ (nativeBytes host 4 data).reverse) := by
  cases host <;>
  simp [_JoinDataFrames, joinLoop, localBuffer, nativeBytes, leBytes, beBytes, writeByte,
    readByte, and_255_mod, List.replicate]

theorem joinDataFrames_eight (host : Endian) (addr data : Nat) :
    _JoinDataFrames (localBuffer 14) addr (nativeBytes host 8 data) 14 =
      some ([0x5A, 0xA5, 11, 0x82, (addr >>> 8) &&& 0xFF, addr &&& 0xFF]
        ++ (nativeBytes host 8 data).reverse) := by
  cases host <;>
  simp [_JoinDataFrames, joinLoop, localBuffer, nativeBytes, leBytes, beBytes, writeByte,
    readByte, and_255_mod, List.replicate]

theorem send2Bytes_eq {W : Type} (host : Endian) (dgus : DGUS_Display_t W) (addr data : Nat)
    (w : W) :
    _Send2Bytes host dgus addr data w =
      some (dgus, dgus.DGUS_SerialSend
        ([0x5A, 0xA5, 5, 0x82, (addr >>> 8) &&& 0xFF, addr &&& 0xFF]
          ++ (nativeBytes host 2 data).reverse) w) := by
  have hlen := nativeBytes_length host 2 data
  simp only [_Send2Bytes, joinDataFrames_two]
  rw [List.take_of_length_le (by simp [hlen])]

theorem send4Bytes_eq {W : Type} (host : Endian) (dgus : DGUS_Display_t W) (addr data : Nat)
    (w : W) :
    _Send4Bytes host dgus addr data w =
      some (dgus, dgus.DGUS_SerialSend
        ([0x5A, 0xA5, 7, 0x82, (addr >>> 8) &&& 0xFF, addr &&& 0xFF]
          ++ (nativeBytes host 4 data).reverse) w) := by
  have hlen := nativeBytes_length host 4 data
  simp only [_Send4Bytes, joinDataFrames_four]
  rw [List.take_of_length_le (by simp [hlen])]

theorem send8Bytes_eq {W : Type} (host : Endian) (dgus : DGUS_Display_t W) (addr data : Nat)
    (w : W) :
    _Send8Bytes host dgus addr data w =
      some (dgus, dgus.DGUS_SerialSend
        ([0x5A, 0xA5, 11, 0x82, (addr >>> 8) &&& 0xFF, addr &&& 0xFF]
          ++ (nativeBytes host 8 data).reverse) w) := by
  have hlen := nativeBytes_length host 8 data
  simp only [_Send8Bytes, joinDataFrames_eight]
  rw [List.take_of_length_le (by simp [hlen])]

theorem sendFloat_eq {W : Type} (host : Endian) (dgus : DGUS_Display_t W) (addr data : Nat)
    (w : W) : _SendFloat host dgus addr data w = _Send4Bytes host dgus addr data w := rfl

theorem sendDouble_eq {W : Type} (host : Endian) (dgus : DGUS_Display_t W) (addr data : Nat)
    (w : W) : _SendDouble host dgus addr data w = _Send8Bytes host dgus addr data w := rfl

/-! ## The frame builder for an arbitrary frame size -/

theorem joinLoop_spec (data : List Nat) (size : Nat) (hd : data.length + 6 = size) :
    ∀ (fuel i : Nat) (pre post : List Nat), pre.length = 6 + i →
      post.length + i = data.length → post.length < fuel →
      joinLoop data size fuel i (pre ++ post) =
        some (pre ++ ((data.map (· % 256)).reverse.drop i)) := by
  intro fuel
  induction fuel with
  | zero => intro i pre post _ _ h; omega
  | succ k ih =>
    intro i pre post hpre hpost hfuel
    cases post with
    | nil =>
      have hcond : ¬ ((i : Int) < (size : Int) - 6) := by
        simp only [List.length_nil] at hpost
        omega
      have hdrop : ((data.map (· % 256)).reverse.drop i) = [] :=
        List.drop_of_length_le (by simp at hpost ⊢; omega)
      simp only [joinLoop, hcond, if_false, hdrop]
    | cons p rest =>
      simp only [List.length_cons] at hpost hfuel
      have hcond : (i : Int) < (size : Int) - 6 := by omega
      have hidx : ((size : Int) - 7) - (i : Int) = ((data.length - 1 - i : Nat) : Int) := by
        omega
      have hlt : data.length - 1 - i < data.length := by omega
      have hread : readByte data (((size : Int) - 7) - (i : Int))
          = some (data[data.length - 1 - i]) := by
        rw [hidx]
        simp only [readByte, Int.natCast_nonneg, if_true, Int.toNat_ofNat]
        rw [List.get?_eq_getElem?, List.getElem?_eq_getElem hlt]
      have hwrite : writeByte (pre ++ p :: rest) (i + 6) (data[data.length - 1 - i])
          = some ((pre ++ [data[data.length - 1 - i] % 256]) ++ rest) := by
        have hl : i + 6 < (pre ++ p :: rest).length := by
          simp only [List.length_append, List.length_cons]; omega
        have hi : i + 6 = pre.length := by omega
        simp only [writeByte, hl, if_true]
        rw [hi, List.set_append_right _ _ (Nat.le_refl _), Nat.sub_self]
        simp
      have hrev : (data.map (· % 256)).reverse.drop i
          = (data[data.length - 1 - i] % 256) :: (data.map (· % 256)).reverse.drop (i + 1) := by
        have hil : i < (data.map (· % 256)).reverse.length := by simp; omega
        rw [List.drop_eq_getElem_cons hil]
        congr 1
        rw [List.getElem_reverse]
        simp
      simp only [joinLoop, hcond, if_true, hread, hwrite]
      rw [ih (i + 1) (pre ++ [data[data.length - 1 - i] % 256]) rest
        (by simp only [List.length_append, List.length_singleton]; omega) (by omega)
        (by omega), hrev]
      simp

/-- For a buffer of exactly `size` bytes and a payload of `size - 6` bytes the builder
returns, whatever the buffer held before, the header followed by the payload reversed. -/
theorem joinDataFrames_spec (tx_data data : List Nat) (addr size : Nat) (hsz : size ≤ 255)
    (htx : tx_data.length = size) (hd : data.length + 6 = size) :
    _JoinDataFrames tx_data addr data size =
      some ([0x5A, 0xA5, size - 3, 0x82, (addr >>> 8) &&& 0xFF, addr &&& 0xFF]
        ++ (data.map (· % 256)).reverse) := by
  match tx_data, htx with
  | t0 :: t1 :: t2 :: t3 :: t4 :: t5 :: rest, htx =>
    simp only [List.length_cons] at htx
    have hlb : (((size : Int) - 3) % 256).toNat % 256 = size - 3 := by omega
    have h := joinLoop_spec data size hd 256 0
      [0x5A, 0xA5, size - 3, 0x82, (addr >>> 8) &&& 0xFF, addr &&& 0xFF] rest rfl
      (by omega) (by omega)
    simp [_JoinDataFrames, writeByte, and_255_mod, hlb]
    simpa using h
  | [], htx => simp at htx; omega
  | [_], htx => simp at htx; omega
  | [_, _], htx => simp at htx; omega
  | [_, _, _], htx => simp at htx; omega
  | [_, _, _, _], htx => simp at htx; omega
  | [_, _, _, _, _], htx => simp at htx; omega

theorem frame_layout (hdr native : List Nat) (n : Nat) (hh : hdr.length = 6)
    (hn : native.length = n) :
    (hdr ++ native.reverse).length = n + 6 ∧
      ∀ i, i < n → (hdr ++ native.reverse)[6 + i]? = native[n - 1 - i]? := by
  refine ⟨by simp [hh, hn]; omega, ?_⟩
  intro i hi
  rw [List.getElem?_append_right (by omega)]
  rw [hh, Nat.add_sub_cancel_left, List.getElem?_reverse (by omega), hn]

theorem nativeBytesInt_length (host : Endian) (n : Nat) (x : Int) :
    (nativeBytesInt host n x).length = n :=
  nativeBytes_length host n _

theorem write_frame_facts {W : Type} (dgus : DGUS_Display_t W) (w : W)
    (op : Option (DGUS_Display_t W × W)) (n a : Nat) (native : List Nat)
    (hn : native.length = n)
    (h : op = some (dgus, dgus.DGUS_SerialSend
      ([0x5A, 0xA5, n + 3, 0x82, (a >>> 8) &&& 0xFF, a &&& 0xFF] ++ native.reverse) w)) :
    ∃ frame : List Nat,
      op = some (dgus, dgus.DGUS_SerialSend frame w) ∧
      frame.length = n + 6 ∧
      frame = [0x5A, 0xA5, n + 3, 0x82, (a >>> 8) &&& 0xFF, a &&& 0xFF] ++ native.reverse ∧
      ∀ i, i < n → frame[6 + i]? = native[n - 1 - i]? := by
  have hl := frame_layout [0x5A, 0xA5, n + 3, 0x82, (a >>> 8) &&& 0xFF, a &&& 0xFF]
    native n rfl hn
  exact ⟨_, h, hl.1, rfl, hl.2⟩

/-! ## Integer writes -/

/-- C1: each of the six integer-write operations (`VarIconSetID`, `ArtVarSetInt16`,
`RatIconSetAngle`, `DataVarSetInt16` with `n = 2`, `DataVarSetInt32` with `n = 4`,
`DataVarSetInt64` with `n = 8`), called with an address `a` in `[0, 0xFFFF]` and a value of
its width, returns after exactly one call of the send binding, with a frame of exactly
`n + 6` bytes: `5A A5`, `n + 3`, `82`, the high and the low byte of `a`, then the `n` native
bytes of the value in reversed order (`frame[6 + i]` is native byte `n - 1 - i`). -/
theorem C1_integer_write_frame {W : Type} (host : Endian) (dgus : DGUS_Display_t W) (w : W)
    (a : Nat) (ha : a ≤ 0xFFFF)
    (id angle : Nat) (hid : id ≤ 0xFFFF) (hangle : angle ≤ 0xFFFF)
    (i16 i32 i64 : Int)
    (hi16 : -32768 ≤ i16 ∧ i16 ≤ 32767)
    (hi32 : -2147483648 ≤ i32 ∧ i32 ≤ 2147483647)
    (hi64 : -9223372036854775808 ≤ i64 ∧ i64 ≤ 9223372036854775807)
    (op : Option (DGUS_Display_t W × W)) (n : Nat) (native : List Nat)
    (hop : (op, n, native) ∈
      [(VarIconSetID host dgus a id w, 2, nativeBytes host 2 id),
       (ArtVarSetInt16 host dgus a i16 w, 2, nativeBytesInt host 2 i16),
       (RatIconSetAngle host dgus a angle w, 2, nativeBytes host 2 angle),
       (DataVarSetInt16 host dgus a i16 w, 2, nativeBytesInt host 2 i16),
       (DataVarSetInt32 host dgus a i32 w, 4, nativeBytesInt host 4 i32),
       (DataVarSetInt64 host dgus a i64 w, 8, nativeBytesInt host 8 i64)]) :
    ∃ frame : List Nat,
      op = some (dgus, dgus.DGUS_SerialSend frame w) ∧
      frame.length = n + 6 ∧
      frame = [0x5A, 0xA5, n + 3, 0x82, (a >>> 8) &&& 0xFF, a &&& 0xFF] ++ native.reverse ∧
      ∀ i, i < n → frame[6 + i]? = native[n - 1 - i]? := by
  simp only [List.mem_cons, Prod.mk.injEq, List.mem_singleton, List.mem_nil_iff, or_false]
    at hop
  rcases hop with ⟨h1, h2, h3⟩ | ⟨h1, h2, h3⟩ | ⟨h1, h2, h3⟩ | ⟨h1, h2, h3⟩ |
    ⟨h1, h2, h3⟩ | ⟨h1, h2, h3⟩ <;> subst h1 h2 h3
  · exact write_frame_facts dgus w _ 2 a _ (nativeBytes_length host 2 id)
      (send2Bytes_eq host dgus a id w)
  · exact write_frame_facts dgus w _ 2 a _ (nativeBytesInt_length host 2 i16)
      (send2Bytes_eq host dgus a _ w)
  · exact write_frame_facts dgus w _ 2 a _ (nativeBytes_length host 2 angle)
      (send2Bytes_eq host dgus a angle w)
  · exact write_frame_facts dgus w _ 2 a _ (nativeBytesInt_length host 2 i16)
      (send2Bytes_eq host dgus a _ w)
  · exact write_frame_facts dgus w _ 4 a _ (nativeBytesInt_length host 4 i32)
      (send4Bytes_eq host dgus a _ w)
  · exact write_frame_facts dgus w _ 8 a _ (nativeBytesInt_length host 8 i64)
      (send8Bytes_eq host dgus a _ w)

/-- Witness of C1: `DataVarSetInt64` at address `0x1234` with value `-2` on a little-endian
host with the recording transport. -/
theorem C1_integer_write_frame_witness :
    ∃ frame : List Nat,
      DataVarSetInt64 Endian.little (recorder "" 0) 0x1234 (-2) [] =
        some (recorder "" 0, [Event.send frame]) ∧
      frame.length = 8 + 6 ∧
      frame = [0x5A, 0xA5, 8 + 3, 0x82, (0x1234 >>> 8) &&& 0xFF, 0x1234 &&& 0xFF]
        ++ (nativeBytesInt Endian.little 8 (-2)).reverse ∧
      ∀ i, i < 8 → frame[6 + i]? = (nativeBytesInt Endian.little 8 (-2))[8 - 1 - i]? :=
  C1_integer_write_frame Endian.little (recorder "" 0) [] 0x1234 (by decide)
    7 9 (by decide) (by decide) (-2) (-2) (-2)
    (by decide) (by decide) (by decide) _ 8 _ (by simp)

theorem payload_decodes (hdr native : List Nat) (hh : hdr.length = 6) :
    ((hdr ++ native.reverse).drop 6).reverse = native := by
  rw [List.drop_append_of_le_length (by omega), List.drop_of_length_le (by omega)]
  simp

theorem unsigned_round_trip {W : Type} (host : Endian) (dgus : DGUS_Display_t W) (w : W)
    (op : Option (DGUS_Display_t W × W)) (n k a v : Nat) (hv : v < 256 ^ n)
    (h : op = some (dgus, dgus.DGUS_SerialSend
      ([0x5A, 0xA5, k, 0x82, (a >>> 8) &&& 0xFF, a &&& 0xFF]
        ++ (nativeBytes host n v).reverse) w)) :
    ∃ frame : List Nat,
      op = some (dgus, dgus.DGUS_SerialSend frame w) ∧
      ofNativeBytes host (frame.drop 6).reverse = v := by
  refine ⟨_, h, ?_⟩
  rw [payload_decodes _ _ (by rfl), ofNativeBytes_nativeBytes, Nat.mod_eq_of_lt hv]

theorem signed_round_trip {W : Type} (host : Endian) (dgus : DGUS_Display_t W) (w : W)
    (op : Option (DGUS_Display_t W × W)) (n k a : Nat) (v : Int)
    (hv : toSigned n (toUnsigned n v % 256 ^ n) = v)
    (h : op = some (dgus, dgus.DGUS_SerialSend
      ([0x5A, 0xA5, k, 0x82, (a >>> 8) &&& 0xFF, a &&& 0xFF]
        ++ (nativeBytes host n (toUnsigned n v)).reverse) w)) :
    ∃ frame : List Nat,
      op = some (dgus, dgus.DGUS_SerialSend frame w) ∧
      ofNativeBytesInt host (frame.drop 6).reverse = v := by
  refine ⟨_, h, ?_⟩
  rw [payload_decodes _ _ (by rfl)]
  unfold ofNativeBytesInt
  rw [nativeBytes_length, ofNativeBytes_nativeBytes, hv]

/-- C2: round trip. For every address and every 16-, 32- and 64-bit value, unsigned
(through `_Send2Bytes`, `_Send4Bytes`, `_Send8Bytes`) or signed (through `DataVarSetInt16`,
`DataVarSetInt32`, `DataVarSetInt64`), the operation sends one frame, and the bytes of that
frame from offset 6 on, reversed and read back as an object in the host's native
representation, are exactly the value written. -/
theorem C2_round_trip {W : Type} (host : Endian) (dgus : DGUS_Display_t W) (w : W)
    (a : Nat) (ha : a ≤ 0xFFFF)
    (u16 u32 u64 : Nat) (hu16 : u16 < 2 ^ 16) (hu32 : u32 < 2 ^ 32) (hu64 : u64 < 2 ^ 64)
    (i16 i32 i64 : Int)
    (hi16 : -2 ^ 15 ≤ i16 ∧ i16 < 2 ^ 15)
    (hi32 : -2 ^ 31 ≤ i32 ∧ i32 < 2 ^ 31)
    (hi64 : -2 ^ 63 ≤ i64 ∧ i64 < 2 ^ 63) :
    (∀ op v, (op, v) ∈
        [(_Send2Bytes host dgus a u16 w, u16), (VarIconSetID host dgus a u16 w, u16),
         (RatIconSetAngle host dgus a u16 w, u16),
         (_Send4Bytes host dgus a u32 w, u32), (_Send8Bytes host dgus a u64 w, u64)] →
      ∃ frame : List Nat,
        op = some (dgus, dgus.DGUS_SerialSend frame w) ∧
        ofNativeBytes host (frame.drop 6).reverse = v) ∧
    (∀ op v, (op, v) ∈
        [(DataVarSetInt16 host dgus a i16 w, i16), (ArtVarSetInt16 host dgus a i16 w, i16),
         (DataVarSetInt32 host dgus a i32 w, i32), (DataVarSetInt64 host dgus a i64 w, i64)] →
      ∃ frame : List Nat,
        op = some (dgus, dgus.DGUS_SerialSend frame w) ∧
        ofNativeBytesInt host (frame.drop 6).reverse = v) := by
  constructor
  · intro op v hop
    simp only [List.mem_cons, Prod.mk.injEq, List.mem_singleton, List.mem_nil_iff, or_false]
      at hop
    rcases hop with ⟨h1, h2⟩ | ⟨h1, h2⟩ | ⟨h1, h2⟩ | ⟨h1, h2⟩ | ⟨h1, h2⟩ <;> rw [h1, h2]
    · exact unsigned_round_trip host dgus w _ 2 _ a u16 (by omega)
        (send2Bytes_eq host dgus a u16 w)
    · exact unsigned_round_trip host dgus w _ 2 _ a u16 (by omega)
        (send2Bytes_eq host dgus a u16 w)
    · exact unsigned_round_trip host dgus w _ 2 _ a u16 (by omega)
        (send2Bytes_eq host dgus a u16 w)
    · exact unsigned_round_trip host dgus w _ 4 _ a u32 (by omega)
        (send4Bytes_eq host dgus a u32 w)
    · exact unsigned_round_trip host dgus w _ 8 _ a u64 (by omega)
        (send8Bytes_eq host dgus a u64 w)
  · intro op v hop
    simp only [List.mem_cons, Prod.mk.injEq, List.mem_singleton, List.mem_nil_iff, or_false]
      at hop
    rcases hop with ⟨h1, h2⟩ | ⟨h1, h2⟩ | ⟨h1, h2⟩ | ⟨h1, h2⟩ <;> rw [h1, h2]
    · exact signed_round_trip host dgus w _ 2 _ a i16
        (toSigned_toUnsigned_two i16 (by omega) (by omega)) (send2Bytes_eq host dgus a _ w)
    · exact signed_round_trip host dgus w _ 2 _ a i16
        (toSigned_toUnsigned_two i16 (by omega) (by omega)) (send2Bytes_eq host dgus a _ w)
    · exact signed_round_trip host dgus w _ 4 _ a i32
        (toSigned_toUnsigned_four i32 (by omega) (by omega)) (send4Bytes_eq host dgus a _ w)
    · exact signed_round_trip host dgus w _ 8 _ a i64
        (toSigned_toUnsigned_eight i64 (by omega) (by omega)) (send8Bytes_eq host dgus a _ w)

/-- Witness of C2 on a big-endian host with the recording transport: unsigned values
`0xABCD`, `0xDEADBEEF`, `0x0102030405060708` and signed values `-2`, `-3`, `-4` at address
`0x1234`. -/
theorem C2_round_trip_witness :
    (∀ op v, (op, v) ∈
        [(_Send2Bytes Endian.big (recorder "" 0) 0x1234 0xABCD [], 0xABCD),
         (VarIconSetID Endian.big (recorder "" 0) 0x1234 0xABCD [], 0xABCD),
         (RatIconSetAngle Endian.big (recorder "" 0) 0x1234 0xABCD [], 0xABCD),
         (_Send4Bytes Endian.big (recorder "" 0) 0x1234 0xDEADBEEF [], 0xDEADBEEF),
         (_Send8Bytes Endian.big (recorder "" 0) 0x1234 0x0102030405060708 [],
           0x0102030405060708)] →
      ∃ frame : List Nat,
        op = some (recorder "" 0, [Event.send frame]) ∧
        ofNativeBytes Endian.big (frame.drop 6).reverse = v) ∧
    (∀ op v, (op, v) ∈
        [(DataVarSetInt16 Endian.big (recorder "" 0) 0x1234 (-2) [], (-2 : Int)),
         (ArtVarSetInt16 Endian.big (recorder "" 0) 0x1234 (-2) [], (-2 : Int)),
         (DataVarSetInt32 Endian.big (recorder "" 0) 0x1234 (-3) [], (-3 : Int)),
         (DataVarSetInt64 Endian.big (recorder "" 0) 0x1234 (-4) [], (-4 : Int))] →
      ∃ frame : List Nat,
        op = some (recorder "" 0, [Event.send frame]) ∧
        ofNativeBytesInt Endian.big (frame.drop 6).reverse = v) :=
  C2_round_trip Endian.big (recorder "" 0) [] 0x1234 (by decide)
    0xABCD 0xDEADBEEF 0x0102030405060708 (by decide) (by decide) (by decide)
    (-2) (-3) (-4) (by decide) (by decide) (by decide)

/-! ## Byte order of the payload -/

/-- C3, counterexample: on a big-endian host the payload that `_JoinDataFrames` builds for
the 2-byte value `0x1234` is `34 12`, least significant byte first, and not the big-endian
bytes `12 34`. -/
theorem C3_big_endian_host_counterexample :
    (_JoinDataFrames (localBuffer 8) 0 (nativeBytes Endian.big 2 0x1234) 8).map (List.drop 6)
        = some [0x34, 0x12] ∧
      beBytes 2 0x1234 = [0x12, 0x34] ∧
      (_JoinDataFrames (localBuffer 8) 0 (nativeBytes Endian.big 2 0x1234) 8).map (List.drop 6)
        ≠ some (beBytes 2 0x1234) := by
  decide

/-- C3, amended: for a value of width 2, 4 or 8 bytes the payload that `_JoinDataFrames`
places at offsets 6 and up is the value's native byte sequence reversed. On a little-endian
host these are the big-endian bytes, most significant first; on a big-endian host they are
the little-endian bytes, least significant first. -/
theorem C3_payload_byte_order (host : Endian) (addr n v : Nat)
    (hn : n = 2 ∨ n = 4 ∨ n = 8) (hv : v < 2 ^ (8 * n)) :
    ∃ tx_data : List Nat,
      _JoinDataFrames (localBuffer (n + 6)) addr (nativeBytes host n v) (n + 6) = some tx_data ∧
      tx_data.drop 6 = (nativeBytes host n v).reverse ∧
      (host = Endian.little → tx_data.drop 6 = beBytes n v) ∧
      (host = Endian.big → tx_data.drop 6 = leBytes n v) := by
  have key : ∀ hdr : List Nat, hdr.length = 6 →
      (hdr ++ (nativeBytes host n v).reverse).drop 6 = (nativeBytes host n v).reverse ∧
      (host = Endian.little → (hdr ++ (nativeBytes host n v).reverse).drop 6 = beBytes n v) ∧
      (host = Endian.big → (hdr ++ (nativeBytes host n v).reverse).drop 6 = leBytes n v) := by
    intro hdr hh
    have hd : (hdr ++ (nativeBytes host n v).reverse).drop 6
        = (nativeBytes host n v).reverse := by
      rw [List.drop_append_of_le_length (by omega), List.drop_of_length_le (by omega)]
      simp
    refine ⟨hd, ?_, ?_⟩
    · intro h; rw [hd, h]; simp [nativeBytes, beBytes]
    · intro h; rw [hd, h]; simp [nativeBytes, beBytes]
  rcases hn with h | h | h <;> subst h
  · exact ⟨_, joinDataFrames_two host addr v, key _ (by rfl)⟩
  · exact ⟨_, joinDataFrames_four host addr v, key _ (by rfl)⟩
  · exact ⟨_, joinDataFrames_eight host addr v, key _ (by rfl)⟩

/-- Witness of the amended C3: the 4-byte value `0xDEADBEEF` on a little-endian host. -/
theorem C3_payload_byte_order_witness :
    ∃ tx_data : List Nat,
      _JoinDataFrames (localBuffer (4 + 6)) 0x2000 (nativeBytes Endian.little 4 0xDEADBEEF)
        (4 + 6) = some tx_data ∧
      tx_data.drop 6 = (nativeBytes Endian.little 4 0xDEADBEEF).reverse ∧
      (Endian.little = Endian.little → tx_data.drop 6 = beBytes 4 0xDEADBEEF) ∧
      (Endian.little = Endian.big → tx_data.drop 6 = leBytes 4 0xDEADBEEF) :=
  C3_payload_byte_order Endian.little 0x2000 4 0xDEADBEEF (by decide) (by decide)

/-! ## Page switch and text display -/

theorem textDisplay_eq {W : Type} (dgus : DGUS_Display_t W) (w : W) (a : Nat)
    (textcode : List Nat) (len : Nat) (hlen : textcode.length = len) :
    TextDisplaySetGB2312 dgus a textcode len w =
      some (dgus, dgus.DGUS_SerialSend textcode
        (dgus.DGUS_SerialSend
          [0x5A, 0xA5, (len + 3) % 256, 0x82, (a >>> 8) &&& 0xFF, a &&& 0xFF] w)) := by
  subst hlen
  simp [TextDisplaySetGB2312, and_255_mod]

theorem length_byte_of_write {W : Type} (dgus : DGUS_Display_t W) (w : W)
    (op : Option (DGUS_Display_t W × W)) (n a : Nat) (native : List Nat)
    (hn : native.length = n)
    (h : op = some (dgus, dgus.DGUS_SerialSend
      ([0x5A, 0xA5, n + 3, 0x82, (a >>> 8) &&& 0xFF, a &&& 0xFF] ++ native.reverse) w)) :
    ∃ frame : List Nat,
      op = some (dgus, dgus.DGUS_SerialSend frame w) ∧ frame[2]? = some (frame.length - 3) := by
  refine ⟨_, h, ?_⟩
  rw [List.getElem?_append_left (by simp)]
  simp [hn]

/-- Within the limits of the length byte the invariant holds: every fixed-size write sends
one frame whose byte 2 is its length minus 3, and so do the reset frame, the page-switch
frame and the text frame (header followed by text) of a text of at most 252 bytes. -/
theorem length_byte_invariant_within_limits {W : Type} (host : Endian)
    (dgus : DGUS_Display_t W) (w : W) (a v : Nat) (x : Int) (textcode : List Nat)
    (ht : textcode.length ≤ 252) :
    (∀ op, op ∈
        [VarIconSetID host dgus a v w, ArtVarSetInt16 host dgus a x w,
         ArtVarSetICON0 host dgus a v w, RatIconSetAngle host dgus a v w,
         DataVarSetInt16 host dgus a x w, DataVarSetInt32 host dgus a x w,
         DataVarSetInt64 host dgus a x w, DataVarSetFloat host dgus a v w,
         DataVarSetDouble host dgus a v w, TextDisplaySetColor host dgus a v w,
         TextDisplaySetFontDots host dgus a v w, BuzzerSet host dgus a w] →
      ∃ frame : List Nat,
        op = some (dgus, dgus.DGUS_SerialSend frame w) ∧
        frame[2]? = some (frame.length - 3)) ∧
    (∃ frame : List Nat,
      DGUS_Reset dgus w = (dgus, dgus.DGUS_DelyMs 3000 (dgus.DGUS_SerialSend frame w)) ∧
      frame[2]? = some (frame.length - 3)) ∧
    (∃ frame : List Nat,
      DGUS_PicSet dgus a w = ({ dgus with picid := a }, dgus.DGUS_SerialSend frame w) ∧
      frame[2]? = some (frame.length - 3)) ∧
    (∃ header : List Nat,
      TextDisplaySetGB2312 dgus a textcode textcode.length w =
        some (dgus, dgus.DGUS_SerialSend textcode (dgus.DGUS_SerialSend header w)) ∧
      (header ++ textcode)[2]? = some ((header ++ textcode).length - 3)) := by
  refine ⟨?_, ⟨_, rfl, rfl⟩, ⟨_, rfl, rfl⟩, ⟨_, textDisplay_eq dgus w a textcode _ rfl, ?_⟩⟩
  · intro op hop
    simp only [List.mem_cons, List.mem_singleton, List.mem_nil_iff, or_false] at hop
    rcases hop with h | h | h | h | h | h | h | h | h | h | h | h <;> rw [h]
    · exact length_byte_of_write dgus w _ 2 _ _ (nativeBytes_length host 2 _)
        (send2Bytes_eq host dgus _ _ w)
    · exact length_byte_of_write dgus w _ 2 _ _ (nativeBytes_length host 2 _)
        (send2Bytes_eq host dgus _ _ w)
    · exact length_byte_of_write dgus w _ 2 _ _ (nativeBytes_length host 2 _)
        (send2Bytes_eq host dgus _ _ w)
    · exact length_byte_of_write dgus w _ 2 _ _ (nativeBytes_length host 2 _)
        (send2Bytes_eq host dgus _ _ w)
    · exact length_byte_of_write dgus w _ 2 _ _ (nativeBytes_length host 2 _)
        (send2Bytes_eq host dgus _ _ w)
    · exact length_byte_of_write dgus w _ 4 _ _ (nativeBytes_length host 4 _)
        (send4Bytes_eq host dgus _ _ w)
    · exact length_byte_of_write dgus w _ 8 _ _ (nativeBytes_length host 8 _)
        (send8Bytes_eq host dgus _ _ w)
    · exact length_byte_of_write dgus w _ 4 _ _ (nativeBytes_length host 4 _)
        (send4Bytes_eq host dgus _ _ w)
    · exact length_byte_of_write dgus w _ 8 _ _ (nativeBytes_length host 8 _)
        (send8Bytes_eq host dgus _ _ w)
    · exact length_byte_of_write dgus w _ 2 _ _ (nativeBytes_length host 2 _)
        (send2Bytes_eq host dgus _ _ w)
    · exact length_byte_of_write dgus w _ 2 _ _ (nativeBytes_length host 2 _)
        (send2Bytes_eq host dgus _ _ w)
    · exact length_byte_of_write dgus w _ 2 _ _ (nativeBytes_length host 2 _)
        (send2Bytes_eq host dgus _ _ w)
  · rw [List.getElem?_append_left (by simp)]
    have hmod : (textcode.length + 3) % 256 = textcode.length + 3 :=
      Nat.mod_eq_of_lt (by omega)
    simp [hmod]

/-- C4, at the failing input: for a text of 253 bytes at address `0x1000` the driver sends
the header `5A A5 00 82 10 00` and then the 253 text bytes. The frame (header followed by
text) has 259 bytes, so its length minus 3 is 256, but byte 2 is 0. -/
theorem C4_text_length_byte_wraps :
    logOf (TextDisplaySetGB2312 (recorder "" 0) 0x1000 (List.replicate 253 0x41) 253 [])
        = some [Event.send [0x5A, 0xA5, 0x00, 0x82, 0x10, 0x00],
                Event.send (List.replicate 253 0x41)] ∧
      ([0x5A, 0xA5, 0x00, 0x82, 0x10, 0x00] ++ List.replicate 253 0x41).length - 3 = 256 ∧
      ([0x5A, 0xA5, 0x00, 0x82, 0x10, 0x00] ++ List.replicate 253 0x41)[2]? = some 0 := by
  refine ⟨?_, ?_, ?_⟩
  · rw [textDisplay_eq _ _ _ _ _ (List.length_replicate 253 0x41)]
    rfl
  · rw [List.length_append, List.length_replicate]
    rfl
  · rw [List.getElem?_append_left (by decide)]
    rfl

/-- C5: for every page id `p` in `[0, 0xFFFF]` and every session, `DGUS_PicSet` calls the
send binding exactly once, with the 10 bytes `5A A5 07 82 00 84 5A 01`, high byte of `p`,
low byte of `p`, and returns the session with `picid = p` whatever it was before; for
`p = 0x0103` the frame is `5A A5 07 82 00 84 5A 01 01 03` and the cached id is `0x0103`. -/
theorem C5_pic_set {W : Type} (dgus : DGUS_Display_t W) (w : W) (p : Nat)
    (hp : p ≤ 0xFFFF) :
    DGUS_PicSet dgus p w =
        ({ dgus with picid := p },
          dgus.DGUS_SerialSend
            [0x5A, 0xA5, 0x07, 0x82, 0x00, 0x84, 0x5A, 0x01, (p >>> 8) &&& 0xFF, p &&& 0xFF]
            w) ∧
      (DGUS_PicSet dgus p w).1.picid = p ∧
      DGUS_PicSet dgus 0x0103 w =
        ({ dgus with picid := 0x0103 },
          dgus.DGUS_SerialSend [0x5A, 0xA5, 0x07, 0x82, 0x00, 0x84, 0x5A, 0x01, 0x01, 0x03]
            w) ∧
      (DGUS_PicSet dgus 0x0103 w).1.picid = 0x0103 := by
  refine ⟨?_, rfl, ?_, rfl⟩
  · simp [DGUS_PicSet, and_255_mod]
  · rfl

/-- Witness of C5: page `0x0103` on a recording session whose cached page id was 7. -/
theorem C5_pic_set_witness :
    DGUS_PicSet (recorder "" 7) 0x0103 [] =
        ({ recorder "" 7 with picid := 0x0103 },
          [Event.send [0x5A, 0xA5, 0x07, 0x82, 0x00, 0x84, 0x5A, 0x01,
            (0x0103 >>> 8) &&& 0xFF, 0x0103 &&& 0xFF]]) ∧
      (DGUS_PicSet (recorder "" 7) 0x0103 []).1.picid = 0x0103 ∧
      DGUS_PicSet (recorder "" 7) 0x0103 [] =
        ({ recorder "" 7 with picid := 0x0103 },
          [Event.send [0x5A, 0xA5, 0x07, 0x82, 0x00, 0x84, 0x5A, 0x01, 0x01, 0x03]]) ∧
      (DGUS_PicSet (recorder "" 7) 0x0103 []).1.picid = 0x0103 :=
  C5_pic_set (recorder "" 7) [] 0x0103 (by decide)

/-- C6: for every address `a` and every text of length `len` with `len + 3 ≤ 255`,
`TextDisplaySetGB2312` calls the send binding exactly twice and no other binding: first with
the 6-byte header `5A A5`, `len + 3`, `82`, high byte of `a`, low byte of `a`, then with
exactly the `len` text bytes in their original order (the empty sequence when `len = 0`).
On the recording transport the log consists of these two sends and nothing else, and for
`len = 5` the length byte of the header is 8. -/
theorem C6_text_display {W : Type} (dgus : DGUS_Display_t W) (w : W) (a : Nat)
    (textcode : List Nat) (len : Nat) (ha : a ≤ 0xFFFF) (hlen : textcode.length = len)
    (h255 : len + 3 ≤ 255) :
    TextDisplaySetGB2312 dgus a textcode len w =
        some (dgus, dgus.DGUS_SerialSend textcode
          (dgus.DGUS_SerialSend
            [0x5A, 0xA5, len + 3, 0x82, (a >>> 8) &&& 0xFF, a &&& 0xFF] w)) ∧
      (∀ (model : String) (picid : Nat),
        logOf (TextDisplaySetGB2312 (recorder model picid) a textcode len []) =
          some [Event.send [0x5A, 0xA5, len + 3, 0x82, (a >>> 8) &&& 0xFF, a &&& 0xFF],
                Event.send textcode]) ∧
      (len = 0 → ∀ (model : String) (picid : Nat),
        logOf (TextDisplaySetGB2312 (recorder model picid) a textcode len []) =
          some [Event.send [0x5A, 0xA5, 3, 0x82, (a >>> 8) &&& 0xFF, a &&& 0xFF],
                Event.send []]) ∧
      (len = 5 → ∀ (model : String) (picid : Nat),
        logOf (TextDisplaySetGB2312 (recorder model picid) a textcode len []) =
          some [Event.send [0x5A, 0xA5, 8, 0x82, (a >>> 8) &&& 0xFF, a &&& 0xFF],
                Event.send textcode]) := by
  have hmod : (len + 3) % 256 = len + 3 := Nat.mod_eq_of_lt (by omega)
  have hgen : ∀ {V : Type} (d : DGUS_Display_t V) (v : V),
      TextDisplaySetGB2312 d a textcode len v =
        some (d, d.DGUS_SerialSend textcode
          (d.DGUS_SerialSend
            [0x5A, 0xA5, len + 3, 0x82, (a >>> 8) &&& 0xFF, a &&& 0xFF] v)) := by
    intro V d v
    rw [textDisplay_eq d v a textcode len hlen, hmod]
  refine ⟨hgen dgus w, ?_, ?_, ?_⟩
  · intro model picid
    rw [hgen]; rfl
  · intro h0 model picid
    have ht : textcode = [] := List.length_eq_zero.mp (hlen.trans h0)
    rw [hgen, h0, ht]; rfl
  · intro h5 model picid
    rw [hgen, h5]; rfl

/-- Witness of C6: the five bytes of "hello" at address `0x2000`. -/
theorem C6_text_display_witness :
    TextDisplaySetGB2312 (recorder "" 0) 0x2000 [0x68, 0x65, 0x6C, 0x6C, 0x6F] 5 [] =
      some (recorder "" 0,
        [Event.send [0x5A, 0xA5, 0x08, 0x82, 0x20, 0x00],
         Event.send [0x68, 0x65, 0x6C, 0x6C, 0x6F]]) :=
  (C6_text_display (recorder "" 0) [] 0x2000 [0x68, 0x65, 0x6C, 0x6C, 0x6F] 5
    (by decide) (by decide) (by decide)).1

/-- C7, counterexample: a text of 300 bytes (`300 + 3 > 255`) is not rejected. The driver
sends a header, whose length byte is `2F`, and then the 300 text bytes. -/
theorem C7_oversized_text_is_sent :
    logOf (TextDisplaySetGB2312 (recorder "" 0) 0x1000 (List.replicate 300 0x41) 300 [])
        = some [Event.send [0x5A, 0xA5, 0x2F, 0x82, 0x10, 0x00],
                Event.send (List.replicate 300 0x41)] ∧
      logOf (TextDisplaySetGB2312 (recorder "" 0) 0x1000 (List.replicate 300 0x41) 300 [])
        ≠ some [] := by
  have h : logOf (TextDisplaySetGB2312 (recorder "" 0) 0x1000 (List.replicate 300 0x41)
      300 []) = some [Event.send [0x5A, 0xA5, 0x2F, 0x82, 0x10, 0x00],
        Event.send (List.replicate 300 0x41)] := by
    rw [textDisplay_eq _ _ _ _ _ (List.length_replicate 300 0x41)]
    rfl
  exact ⟨h, by rw [h]; exact fun hc => List.noConfusion (Option.some.inj hc)⟩

/-- C7, amended: `TextDisplaySetGB2312` has no length check and never rejects. For every
text whose length `len` (a `uint16_t`) makes `len + 3` exceed 255 it returns after two calls
of the send binding, as for shorter texts: a 6-byte header `5A A5`, a length byte, `82`,
high and low byte of the address, and then all `len` text bytes, unchanged and
untruncated. -/
theorem C7_no_length_check {W : Type} (dgus : DGUS_Display_t W) (w : W) (a : Nat)
    (textcode : List Nat) (len : Nat) (ha : a ≤ 0xFFFF) (hlen : textcode.length = len)
    (hu16 : len ≤ 0xFFFF) (hbig : 255 < len + 3) :
    ∃ lengthByte : Nat,
      TextDisplaySetGB2312 dgus a textcode len w =
        some (dgus, dgus.DGUS_SerialSend textcode
          (dgus.DGUS_SerialSend
            [0x5A, 0xA5, lengthByte, 0x82, (a >>> 8) &&& 0xFF, a &&& 0xFF] w)) := by
  exact ⟨(len + 3) % 256, textDisplay_eq dgus w a textcode len hlen⟩

/-- Witness of the amended C7: a text of 300 bytes at address `0x1000`. -/
theorem C7_no_length_check_witness :
    ∃ lengthByte : Nat,
      TextDisplaySetGB2312 (recorder "" 0) 0x1000 (List.replicate 300 0x41) 300 [] =
        some (recorder "" 0,
          (recorder "" 0).DGUS_SerialSend (List.replicate 300 0x41)
            ((recorder "" 0).DGUS_SerialSend
              [0x5A, 0xA5, lengthByte, 0x82, (0x1000 >>> 8) &&& 0xFF, 0x1000 &&& 0xFF] [])) :=
  C7_no_length_check (recorder "" 0) [] 0x1000 (List.replicate 300 0x41) 300
    (by decide) (List.length_replicate 300 0x41) (by decide) (by decide)

/-! ## Buzzer and reset -/

/-- C8, counterexample: with `mstime = 100` on a little-endian host the frame sent is
`5A A5 05 82 00 A0 00 0C`; its length byte is `05`, so it is not the claimed
`5A A5 07 82 00 A0 00 0C`, and the frame sent on a big-endian host is not the claimed one
either. -/
theorem C8_claimed_frame_counterexample :
    logOf (BuzzerSet Endian.little (recorder "" 0) 100 [])
        = some [Event.send [0x5A, 0xA5, 0x05, 0x82, 0x00, 0xA0, 0x00, 0x0C]] ∧
      logOf (BuzzerSet Endian.little (recorder "" 0) 100 [])
        ≠ some [Event.send [0x5A, 0xA5, 0x07, 0x82, 0x00, 0xA0, 0x00, 0x0C]] ∧
      logOf (BuzzerSet Endian.big (recorder "" 0) 100 [])
        ≠ some [Event.send [0x5A, 0xA5, 0x07, 0x82, 0x00, 0xA0, 0x00, 0x0C]] := by
  decide

/-- C8, amended: on a little-endian host `BuzzerSet` called with `mstime = 100` calls the
send binding exactly once, with the 8 bytes `5A A5 05 82 00 A0 00 0C`. -/
theorem C8_buzzer_100 {W : Type} (dgus : DGUS_Display_t W) (w : W) :
    BuzzerSet Endian.little dgus 100 w =
      some (dgus, dgus.DGUS_SerialSend [0x5A, 0xA5, 0x05, 0x82, 0x00, 0xA0, 0x00, 0x0C] w) := by
  unfold BuzzerSet
  rw [send2Bytes_eq]
  rfl

theorem nativeBytes_two_injective (host : Endian) (x y : Nat) (hx : x < 65536)
    (hy : y < 65536) (h : nativeBytes host 2 x = nativeBytes host 2 y) : x = y := by
  have hx2 := ofNativeBytes_nativeBytes host 2 x
  have hy2 := ofNativeBytes_nativeBytes host 2 y
  rw [h, hy2] at hx2
  rw [Nat.mod_eq_of_lt (by omega), Nat.mod_eq_of_lt (by omega)] at hx2
  exact hx2.symm

/-- C9: for every `mstime` in `[0, 0xFFFF]`, `BuzzerSet` does exactly what the 2-byte
integer write of `mstime / 8` (rounded down) at address `0x00A0` does, sending the frame
`5A A5 05 82 00 A0` followed by the reversed native bytes of that quotient; a duration
below 8 encodes the value 0; and two durations lead to the same frame on the wire exactly
when their quotients by 8 agree. -/
theorem C9_buzzer_truncates {W : Type} (host : Endian) (dgus : DGUS_Display_t W) (w : W)
    (mstime other : Nat) (hm : mstime ≤ 0xFFFF) (ho : other ≤ 0xFFFF) :
    BuzzerSet host dgus mstime w = _Send2Bytes host dgus 0x00A0 (mstime / 8) w ∧
      BuzzerSet host dgus mstime w = VarIconSetID host dgus 0x00A0 (mstime / 8) w ∧
      BuzzerSet host dgus mstime w =
        some (dgus, dgus.DGUS_SerialSend
          ([0x5A, 0xA5, 0x05, 0x82, 0x00, 0xA0] ++ (nativeBytes host 2 (mstime / 8)).reverse)
          w) ∧
      (mstime < 8 → BuzzerSet host dgus mstime w = _Send2Bytes host dgus 0x00A0 0 w) ∧
      (logOf (BuzzerSet host (recorder "" 0) mstime []) =
          logOf (BuzzerSet host (recorder "" 0) other []) ↔
        mstime / 8 = other / 8) := by
  have hshift : ∀ m : Nat, m >>> 3 = m / 8 := fun m => by
    rw [Nat.shiftRight_eq_div_pow]
  have hdef : ∀ {V : Type} (d : DGUS_Display_t V) (v : V) (m : Nat),
      BuzzerSet host d m v = _Send2Bytes host d 0x00A0 (m / 8) v := by
    intro V d v m
    unfold BuzzerSet
    rw [hshift]
  refine ⟨hdef dgus w mstime, hdef dgus w mstime, ?_, ?_, ?_⟩
  · rw [hdef, send2Bytes_eq]; rfl
  · intro h8
    rw [hdef, Nat.div_eq_of_lt h8]
  · rw [hdef, hdef, send2Bytes_eq, send2Bytes_eq]
    constructor
    · intro h
      simp only [logOf, Option.map_some', recorder, List.nil_append, Option.some.injEq,
        List.cons.injEq, Event.send.injEq, and_true, List.append_cancel_left_eq,
        List.reverse_inj] at h
      exact nativeBytes_two_injective host _ _ (by omega) (by omega) h
    · intro h
      rw [h]

/-- Witness of C9: 100 ms and 103 ms on a little-endian host. -/
theorem C9_buzzer_truncates_witness :
    BuzzerSet Endian.little (recorder "" 0) 100 [] =
        _Send2Bytes Endian.little (recorder "" 0) 0x00A0 (100 / 8) [] ∧
      BuzzerSet Endian.little (recorder "" 0) 100 [] =
        VarIconSetID Endian.little (recorder "" 0) 0x00A0 (100 / 8) [] ∧
      BuzzerSet Endian.little (recorder "" 0) 100 [] =
        some (recorder "" 0,
          [Event.send ([0x5A, 0xA5, 0x05, 0x82, 0x00, 0xA0]
            ++ (nativeBytes Endian.little 2 (100 / 8)).reverse)]) ∧
      (100 < 8 → BuzzerSet Endian.little (recorder "" 0) 100 [] =
        _Send2Bytes Endian.little (recorder "" 0) 0x00A0 0 []) ∧
      (logOf (BuzzerSet Endian.little (recorder "" 0) 100 []) =
          logOf (BuzzerSet Endian.little (recorder "" 0) 103 []) ↔
        100 / 8 = 103 / 8) :=
  C9_buzzer_truncates Endian.little (recorder "" 0) [] 100 103 (by decide) (by decide)

/-- C10: for every session, `DGUS_Reset` calls the send binding once with the 10 bytes
`5A A5 07 82 00 04 55 AA 5A A5` and then the delay binding once with 3000, and nothing
else; on the recording transport the log is exactly that send followed by that delay.
The handle is returned as it was. -/
theorem C10_reset {W : Type} (dgus : DGUS_Display_t W) (w : W) (model : String)
    (picid : Nat) :
    DGUS_Reset dgus w =
        (dgus, dgus.DGUS_DelyMs 3000
          (dgus.DGUS_SerialSend [0x5A, 0xA5, 0x07, 0x82, 0x00, 0x04, 0x55, 0xAA, 0x5A, 0xA5]
            w)) ∧
      (DGUS_Reset (recorder model picid) []).2 =
        [Event.send [0x5A, 0xA5, 0x07, 0x82, 0x00, 0x04, 0x55, 0xAA, 0x5A, 0xA5],
         Event.delay 3000] :=
  ⟨rfl, rfl⟩

/-! ## Frame sizes of the single-purpose encoders -/

/-- C11, counterexample: `_Send8Bytes` sends a frame of 14 bytes, not 10, and `_SendFloat`
sends a frame of 10 bytes, not 14 (address 0, all payload bits 0, little-endian host). -/
theorem C11_sizes_counterexample :
    logOf (_Send8Bytes Endian.little (recorder "" 0) 0 0 []) =
        some [Event.send [0x5A, 0xA5, 0x0B, 0x82, 0, 0, 0, 0, 0, 0, 0, 0, 0, 0]] ∧
      [0x5A, 0xA5, 0x0B, 0x82, 0, 0, 0, 0, 0, 0, 0, 0, 0, 0].length ≠ 10 ∧
      logOf (_SendFloat Endian.little (recorder "" 0) 0 0 []) =
        some [Event.send [0x5A, 0xA5, 0x07, 0x82, 0, 0, 0, 0, 0, 0]] ∧
      [0x5A, 0xA5, 0x07, 0x82, 0, 0, 0, 0, 0, 0].length ≠ 14 := by
  decide

theorem sent_frame_length {W : Type} (dgus : DGUS_Display_t W) (w : W)
    (op : Option (DGUS_Display_t W × W)) (n a : Nat) (native : List Nat)
    (hn : native.length = n)
    (h : op = some (dgus, dgus.DGUS_SerialSend
      ([0x5A, 0xA5, n + 3, 0x82, (a >>> 8) &&& 0xFF, a &&& 0xFF] ++ native.reverse) w)) :
    ∃ frame : List Nat,
      op = some (dgus, dgus.DGUS_SerialSend frame w) ∧ frame.length = n + 6 :=
  ⟨_, h, by simp [hn]⟩

/-- C11, amended: the single-purpose encoders `_Send2Bytes`, `_Send4Bytes`, `_Send8Bytes`,
`_SendFloat` and `_SendDouble` each send one frame, of 8, 10, 14, 10 and 14 bytes
respectively (payload width plus 6). -/
theorem C11_encoder_frame_sizes {W : Type} (host : Endian) (dgus : DGUS_Display_t W) (w : W)
    (addr data : Nat) :
    (∃ frame : List Nat, _Send2Bytes host dgus addr data w =
        some (dgus, dgus.DGUS_SerialSend frame w) ∧ frame.length = 8) ∧
    (∃ frame : List Nat, _Send4Bytes host dgus addr data w =
        some (dgus, dgus.DGUS_SerialSend frame w) ∧ frame.length = 10) ∧
    (∃ frame : List Nat, _Send8Bytes host dgus addr data w =
        some (dgus, dgus.DGUS_SerialSend frame w) ∧ frame.length = 14) ∧
    (∃ frame : List Nat, _SendFloat host dgus addr data w =
        some (dgus, dgus.DGUS_SerialSend frame w) ∧ frame.length = 10) ∧
    (∃ frame : List Nat, _SendDouble host dgus addr data w =
        some (dgus, dgus.DGUS_SerialSend frame w) ∧ frame.length = 14) :=
  ⟨sent_frame_length dgus w _ 2 addr _ (nativeBytes_length host 2 data)
      (send2Bytes_eq host dgus addr data w),
   sent_frame_length dgus w _ 4 addr _ (nativeBytes_length host 4 data)
      (send4Bytes_eq host dgus addr data w),
   sent_frame_length dgus w _ 8 addr _ (nativeBytes_length host 8 data)
      (send8Bytes_eq host dgus addr data w),
   sent_frame_length dgus w _ 4 addr _ (nativeBytes_length host 4 data)
      ((sendFloat_eq host dgus addr data w).trans (send4Bytes_eq host dgus addr data w)),
   sent_frame_length dgus w _ 8 addr _ (nativeBytes_length host 8 data)
      ((sendDouble_eq host dgus addr data w).trans (send8Bytes_eq host dgus addr data w))⟩

/-! ## Descriptor-field writes -/

theorem shift_mask_eq (a : Nat) : (a >>> 8) &&& 0xFF = a / 256 % 256 := by
  rw [Nat.shiftRight_eq_div_pow]
  exact Nat.and_pow_two_sub_one_eq_mod (a / 2 ^ 8) 8

theorem mask_eq (a : Nat) : a &&& 0xFF = a % 256 :=
  Nat.and_pow_two_sub_one_eq_mod a 8

/-- C12: for every descriptor address `sp` in `[0, 0xFFFF]` and every 16-bit value `x`,
`ArtVarSetICON0` and `TextDisplaySetColor` do exactly what the 2-byte integer write of `x`
at address `(sp + 0x03) mod 2^16` does, and `TextDisplaySetFontDots` what the 2-byte write
at `(sp + 0x0A) mod 2^16` does; bytes 4 and 5 of the frame sent are the high and the low
byte of that reduced sum. -/
theorem C12_descriptor_field_writes {W : Type} (host : Endian) (dgus : DGUS_Display_t W)
    (w : W) (sp x : Nat) (hsp : sp ≤ 0xFFFF) (hx : x ≤ 0xFFFF) :
    (ArtVarSetICON0 host dgus sp x w = VarIconSetID host dgus ((sp + 0x03) % 2 ^ 16) x w ∧
      ArtVarSetICON0 host dgus sp x w =
        some (dgus, dgus.DGUS_SerialSend
          ([0x5A, 0xA5, 0x05, 0x82, (sp + 0x03) % 2 ^ 16 / 256, (sp + 0x03) % 256]
            ++ (nativeBytes host 2 x).reverse) w)) ∧
    (TextDisplaySetColor host dgus sp x w =
        VarIconSetID host dgus ((sp + 0x03) % 2 ^ 16) x w ∧
      TextDisplaySetColor host dgus sp x w =
        some (dgus, dgus.DGUS_SerialSend
          ([0x5A, 0xA5, 0x05, 0x82, (sp + 0x03) % 2 ^ 16 / 256, (sp + 0x03) % 256]
            ++ (nativeBytes host 2 x).reverse) w)) ∧
    (TextDisplaySetFontDots host dgus sp x w =
        VarIconSetID host dgus ((sp + 0x0A) % 2 ^ 16) x w ∧
      TextDisplaySetFontDots host dgus sp x w =
        some (dgus, dgus.DGUS_SerialSend
          ([0x5A, 0xA5, 0x05, 0x82, (sp + 0x0A) % 2 ^ 16 / 256, (sp + 0x0A) % 256]
            ++ (nativeBytes host 2 x).reverse) w)) := by
  have key : ∀ k : Nat, _Send2Bytes host dgus ((sp + k) % 65536) x w =
      some (dgus, dgus.DGUS_SerialSend
        ([0x5A, 0xA5, 0x05, 0x82, (sp + k) % 2 ^ 16 / 256, (sp + k) % 256]
          ++ (nativeBytes host 2 x).reverse) w) := by
    intro k
    rw [send2Bytes_eq, shift_mask_eq, mask_eq]
    have h1 : (sp + k) % 65536 / 256 % 256 = (sp + k) % 2 ^ 16 / 256 := by omega
    have h2 : (sp + k) % 65536 % 256 = (sp + k) % 256 := by omega
    rw [h1, h2]
  exact ⟨⟨rfl, key 0x03⟩, ⟨rfl, key 0x03⟩, ⟨rfl, key 0x0A⟩⟩

/-- Witness of C12: descriptor address `0xFFFE`, where `sp + 0x03` wraps to `0x0001` and
`sp + 0x0A` to `0x0008`, value `0xF800`, little-endian host. -/
theorem C12_descriptor_field_writes_witness :
    logOf (ArtVarSetICON0 Endian.little (recorder "" 0) 0xFFFE 0xF800 []) =
        some [Event.send [0x5A, 0xA5, 0x05, 0x82, 0x00, 0x01, 0xF8, 0x00]] ∧
      logOf (TextDisplaySetColor Endian.little (recorder "" 0) 0xFFFE 0xF800 []) =
        some [Event.send [0x5A, 0xA5, 0x05, 0x82, 0x00, 0x01, 0xF8, 0x00]] ∧
      logOf (TextDisplaySetFontDots Endian.little (recorder "" 0) 0xFFFE 0xF800 []) =
        some [Event.send [0x5A, 0xA5, 0x05, 0x82, 0x00, 0x08, 0xF8, 0x00]] :=
  have h := C12_descriptor_field_writes Endian.little (recorder "" 0) [] 0xFFFE 0xF800
    (by decide) (by decide)
  ⟨congrArg logOf h.1.2, congrArg logOf h.2.1.2, congrArg logOf h.2.2.2⟩

/-! ## Floating-point writes -/

theorem toUnsigned_toSigned_four (b : Nat) (hb : b < 2 ^ 32) :
    toUnsigned 4 (toSigned 4 b) = b := by
  unfold toSigned toUnsigned
  norm_num
  split <;> omega

theorem toUnsigned_toSigned_eight (b : Nat) (hb : b < 2 ^ 64) :
    toUnsigned 8 (toSigned 8 b) = b := by
  unfold toSigned toUnsigned
  norm_num
  split <;> omega

theorem bit_pattern_write {W : Type} (host : Endian) (dgus : DGUS_Display_t W) (w : W)
    (op : Option (DGUS_Display_t W × W)) (n a b : Nat) (hb : b < 256 ^ n)
    (h : op = some (dgus, dgus.DGUS_SerialSend
      ([0x5A, 0xA5, n + 3, 0x82, (a >>> 8) &&& 0xFF, a &&& 0xFF]
        ++ (nativeBytes host n b).reverse) w)) :
    ∃ frame : List Nat,
      op = some (dgus, dgus.DGUS_SerialSend frame w) ∧
      frame.length = n + 6 ∧
      frame.drop 6 = (nativeBytes host n b).reverse ∧
      (frame.drop 6).reverse = nativeBytes host n b ∧
      ofNativeBytes host (frame.drop 6).reverse = b := by
  have hdec := payload_decodes
    [0x5A, 0xA5, n + 3, 0x82, (a >>> 8) &&& 0xFF, a &&& 0xFF] (nativeBytes host n b) rfl
  refine ⟨_, h, by simp [nativeBytes_length], ?_, hdec, ?_⟩
  · exact List.reverse_eq_iff.mp hdec
  · rw [hdec, ofNativeBytes_nativeBytes, Nat.mod_eq_of_lt hb]

/-- C13: for every address and every 32-bit pattern `b`, `DataVarSetFloat` applied to the
float with bits `b` sends one 10-byte frame whose bytes 6..9 are the native bytes of `b`
reversed; reversing them again gives back the native bytes, which read back as exactly
`b`. The frame is the one the 4-byte integer write sends for the integer with the same bits
(unsigned through `_Send4Bytes`, signed through `DataVarSetInt32`). The same holds for every
64-bit pattern, `DataVarSetDouble`, bytes 6..13 and the 8-byte integer write. No pattern is
special: zero, negative zero, subnormals, NaNs and infinities are covered. -/
theorem C13_float_bit_patterns {W : Type} (host : Endian) (dgus : DGUS_Display_t W) (w : W)
    (a b32 b64 : Nat) (ha : a ≤ 0xFFFF) (h32 : b32 < 2 ^ 32) (h64 : b64 < 2 ^ 64) :
    (∃ frame : List Nat,
      DataVarSetFloat host dgus a b32 w = some (dgus, dgus.DGUS_SerialSend frame w) ∧
      frame.length = 4 + 6 ∧
      frame.drop 6 = (nativeBytes host 4 b32).reverse ∧
      (frame.drop 6).reverse = nativeBytes host 4 b32 ∧
      ofNativeBytes host (frame.drop 6).reverse = b32) ∧
    DataVarSetFloat host dgus a b32 w = _Send4Bytes host dgus a b32 w ∧
    DataVarSetFloat host dgus a b32 w = DataVarSetInt32 host dgus a (toSigned 4 b32) w ∧
    (∃ frame : List Nat,
      DataVarSetDouble host dgus a b64 w = some (dgus, dgus.DGUS_SerialSend frame w) ∧
      frame.length = 8 + 6 ∧
      frame.drop 6 = (nativeBytes host 8 b64).reverse ∧
      (frame.drop 6).reverse = nativeBytes host 8 b64 ∧
      ofNativeBytes host (frame.drop 6).reverse = b64) ∧
    DataVarSetDouble host dgus a b64 w = _Send8Bytes host dgus a b64 w ∧
    DataVarSetDouble host dgus a b64 w = DataVarSetInt64 host dgus a (toSigned 8 b64) w := by
  refine ⟨?_, rfl, ?_, ?_, rfl, ?_⟩
  · exact bit_pattern_write host dgus w _ 4 a b32 (by omega)
      (send4Bytes_eq host dgus a b32 w)
  · unfold DataVarSetInt32
    rw [toUnsigned_toSigned_four b32 h32]
    rfl
  · exact bit_pattern_write host dgus w _ 8 a b64 (by omega)
      (send8Bytes_eq host dgus a b64 w)
  · unfold DataVarSetInt64
    rw [toUnsigned_toSigned_eight b64 h64]
    rfl

/-- Witness of C13: the quiet NaN `0x7FC00001` as a float and negative zero
`0x8000000000000000` as a double, at address `0x1234` on a little-endian host. -/
theorem C13_float_bit_patterns_witness :
    logOf (DataVarSetFloat Endian.little (recorder "" 0) 0x1234 0x7FC00001 []) =
        logOf (_Send4Bytes Endian.little (recorder "" 0) 0x1234 0x7FC00001 []) ∧
      logOf (DataVarSetDouble Endian.little (recorder "" 0) 0x1234 0x8000000000000000 []) =
        logOf (_Send8Bytes Endian.little (recorder "" 0) 0x1234 0x8000000000000000 []) :=
  have h := C13_float_bit_patterns Endian.little (recorder "" 0) [] 0x1234 0x7FC00001
    0x8000000000000000 (by decide) (by decide) (by decide)
  ⟨congrArg logOf h.2.1, congrArg logOf h.2.2.2.2.1⟩

/-! ## The handle: what the operations change and what they depend on -/

theorem send2Bytes_handle {W : Type} (host : Endian) (dgus : DGUS_Display_t W) (p a v : Nat)
    (w : W) :
    ∃ w1 : W, _Send2Bytes host dgus a v w = some (dgus, w1) ∧
      _Send2Bytes host { dgus with picid := p } a v w = some ({ dgus with picid := p }, w1) :=
  ⟨_, send2Bytes_eq host dgus a v w, send2Bytes_eq host { dgus with picid := p } a v w⟩

theorem send4Bytes_handle {W : Type} (host : Endian) (dgus : DGUS_Display_t W) (p a v : Nat)
    (w : W) :
    ∃ w1 : W, _Send4Bytes host dgus a v w = some (dgus, w1) ∧
      _Send4Bytes host { dgus with picid := p } a v w = some ({ dgus with picid := p }, w1) :=
  ⟨_, send4Bytes_eq host dgus a v w, send4Bytes_eq host { dgus with picid := p } a v w⟩

theorem send8Bytes_handle {W : Type} (host : Endian) (dgus : DGUS_Display_t W) (p a v : Nat)
    (w : W) :
    ∃ w1 : W, _Send8Bytes host dgus a v w = some (dgus, w1) ∧
      _Send8Bytes host { dgus with picid := p } a v w = some ({ dgus with picid := p }, w1) :=
  ⟨_, send8Bytes_eq host dgus a v w, send8Bytes_eq host { dgus with picid := p } a v w⟩

theorem textDisplay_handle {W : Type} (dgus : DGUS_Display_t W) (p a : Nat)
    (textcode : List Nat) (len : Nat) (hlen : len ≤ textcode.length) (w : W) :
    ∃ w1 : W, TextDisplaySetGB2312 dgus a textcode len w = some (dgus, w1) ∧
      TextDisplaySetGB2312 { dgus with picid := p } a textcode len w =
        some ({ dgus with picid := p }, w1) := by
  refine ⟨dgus.DGUS_SerialSend (textcode.take len)
    (dgus.DGUS_SerialSend
      [0x5A, 0xA5, (len + 3) % 256, 0x82, ((a >>> 8) &&& 0xFF) % 256, (a &&& 0xFF) % 256]
      w), ?_, ?_⟩
  · simp [TextDisplaySetGB2312, hlen]
  · simp [TextDisplaySetGB2312, hlen]

/-- C14: every public operation other than `DGUS_PicSet` returns the handle exactly as it
was given, all five fields, the cached page id among them (for `TextDisplaySetGB2312` the
text buffer must hold the `len` bytes it is asked to send). `DGUS_PicSet` returns the handle
with `picid` replaced by its argument and the model and the three bindings as they were. -/
theorem C14_handle_unchanged {W : Type} (host : Endian) (dgus : DGUS_Display_t W) (w : W)
    (a v : Nat) (x : Int) (textcode : List Nat) (len : Nat) (hlen : len ≤ textcode.length)
    (p : Nat) :
    (∀ op, op ∈
        [VarIconSetID host dgus a v w, ArtVarSetInt16 host dgus a x w,
         ArtVarSetICON0 host dgus a v w, RatIconSetAngle host dgus a v w,
         DataVarSetInt16 host dgus a x w, DataVarSetInt32 host dgus a x w,
         DataVarSetInt64 host dgus a x w, DataVarSetFloat host dgus a v w,
         DataVarSetDouble host dgus a v w, TextDisplaySetGB2312 dgus a textcode len w,
         TextDisplaySetColor host dgus a v w, TextDisplaySetFontDots host dgus a v w,
         BuzzerSet host dgus v w] →
      ∃ w1 : W, op = some (dgus, w1) ∧ (dgus, w1).1.picid = dgus.picid) ∧
    (DGUS_Reset dgus w).1 = dgus ∧
    (DGUS_PicSet dgus p w).1 = { dgus with picid := p } ∧
    (DGUS_PicSet dgus p w).1.picid = p ∧
    (DGUS_PicSet dgus p w).1.model = dgus.model ∧
    (DGUS_PicSet dgus p w).1.DGUS_SerialSend = dgus.DGUS_SerialSend ∧
    (DGUS_PicSet dgus p w).1.DGUS_SerialReceive = dgus.DGUS_SerialReceive ∧
    (DGUS_PicSet dgus p w).1.DGUS_DelyMs = dgus.DGUS_DelyMs := by
  refine ⟨?_, rfl, rfl, rfl, rfl, rfl, rfl, rfl⟩
  intro op hop
  simp only [List.mem_cons, List.mem_singleton, List.mem_nil_iff, or_false] at hop
  rcases hop with h | h | h | h | h | h | h | h | h | h | h | h | h
  · obtain ⟨w1, h1, _⟩ := send2Bytes_handle host dgus p a v w
    exact ⟨w1, h.trans h1, rfl⟩
  · obtain ⟨w1, h1, _⟩ := send2Bytes_handle host dgus p a (toUnsigned 2 x) w
    exact ⟨w1, h.trans h1, rfl⟩
  · obtain ⟨w1, h1, _⟩ := send2Bytes_handle host dgus p ((a + 0x03) % 65536) v w
    exact ⟨w1, h.trans h1, rfl⟩
  · obtain ⟨w1, h1, _⟩ := send2Bytes_handle host dgus p a v w
    exact ⟨w1, h.trans h1, rfl⟩
  · obtain ⟨w1, h1, _⟩ := send2Bytes_handle host dgus p a (toUnsigned 2 x) w
    exact ⟨w1, h.trans h1, rfl⟩
  · obtain ⟨w1, h1, _⟩ := send4Bytes_handle host dgus p a (toUnsigned 4 x) w
    exact ⟨w1, h.trans h1, rfl⟩
  · obtain ⟨w1, h1, _⟩ := send8Bytes_handle host dgus p a (toUnsigned 8 x) w
    exact ⟨w1, h.trans h1, rfl⟩
  · obtain ⟨w1, h1, _⟩ := send4Bytes_handle host dgus p a v w
    exact ⟨w1, h.trans h1, rfl⟩
  · obtain ⟨w1, h1, _⟩ := send8Bytes_handle host dgus p a v w
    exact ⟨w1, h.trans h1, rfl⟩
  · obtain ⟨w1, h1, _⟩ := textDisplay_handle dgus p a textcode len hlen w
    exact ⟨w1, h.trans h1, rfl⟩
  · obtain ⟨w1, h1, _⟩ := send2Bytes_handle host dgus p ((a + 0x03) % 65536) v w
    exact ⟨w1, h.trans h1, rfl⟩
  · obtain ⟨w1, h1, _⟩ := send2Bytes_handle host dgus p ((a + 0x0A) % 65536) v w
    exact ⟨w1, h.trans h1, rfl⟩
  · obtain ⟨w1, h1, _⟩ := send2Bytes_handle host dgus p 0x00A0 (v >>> 3) w
    exact ⟨w1, h.trans h1, rfl⟩

/-- Witness of C14: a recording session with model "T5L" and cached page id 7; the text
operation with a 2-byte text, the reset and the switch to page `0x0103`. -/
theorem C14_handle_unchanged_witness :
    (∃ w1 : List Event,
      TextDisplaySetGB2312 (recorder "T5L" 7) 0x2000 [0x68, 0x69] 2 [] =
        some (recorder "T5L" 7, w1) ∧
      (recorder "T5L" 7, w1).1.picid = (recorder "T5L" 7).picid) ∧
    (DGUS_Reset (recorder "T5L" 7) []).1 = recorder "T5L" 7 ∧
    (DGUS_PicSet (recorder "T5L" 7) 0x0103 []).1 = recorder "T5L" 0x0103 ∧
    (DGUS_PicSet (recorder "T5L" 7) 0x0103 []).1.model = "T5L" :=
  have h := C14_handle_unchanged Endian.little (recorder "T5L" 7) [] 0x2000 0x0041 (-1)
    [0x68, 0x69] 2 (by decide) 0x0103
  ⟨h.1 _ (by simp), h.2.1, h.2.2.1, h.2.2.2.2.1⟩

/-- C15: the operations do not read the cached page id. For a session `dgus` and the
session that differs from it only in `picid`, every operation called with the same
arguments on the same world returns on both and leaves the same world behind: whatever the
transport is, the send binding (and for the reset the delay binding) is applied to the same
arguments in the same order. This includes `DGUS_PicSet`, whose frame depends on its
argument only. -/
theorem C15_stateless {W : Type} (host : Endian) (dgus : DGUS_Display_t W) (w : W)
    (q a v : Nat) (x : Int) (textcode : List Nat) (len : Nat) (hlen : len ≤ textcode.length)
    (p : Nat) :
    (∀ r1 r2, (r1, r2) ∈
        [(VarIconSetID host dgus a v w,
          VarIconSetID host { dgus with picid := q } a v w),
         (ArtVarSetInt16 host dgus a x w,
          ArtVarSetInt16 host { dgus with picid := q } a x w),
         (ArtVarSetICON0 host dgus a v w,
          ArtVarSetICON0 host { dgus with picid := q } a v w),
         (RatIconSetAngle host dgus a v w,
          RatIconSetAngle host { dgus with picid := q } a v w),
         (DataVarSetInt16 host dgus a x w,
          DataVarSetInt16 host { dgus with picid := q } a x w),
         (DataVarSetInt32 host dgus a x w,
          DataVarSetInt32 host { dgus with picid := q } a x w),
         (DataVarSetInt64 host dgus a x w,
          DataVarSetInt64 host { dgus with picid := q } a x w),
         (DataVarSetFloat host dgus a v w,
          DataVarSetFloat host { dgus with picid := q } a v w),
         (DataVarSetDouble host dgus a v w,
          DataVarSetDouble host { dgus with picid := q } a v w),
         (TextDisplaySetGB2312 dgus a textcode len w,
          TextDisplaySetGB2312 { dgus with picid := q } a textcode len w),
         (TextDisplaySetColor host dgus a v w,
          TextDisplaySetColor host { dgus with picid := q } a v w),
         (TextDisplaySetFontDots host dgus a v w,
          TextDisplaySetFontDots host { dgus with picid := q } a v w),
         (BuzzerSet host dgus v w,
          BuzzerSet host { dgus with picid := q } v w)] →
      ∃ w1 : W, logOf r1 = some w1 ∧ logOf r2 = some w1) ∧
    (DGUS_Reset dgus w).2 = (DGUS_Reset { dgus with picid := q } w).2 ∧
    (DGUS_PicSet dgus p w).2 = (DGUS_PicSet { dgus with picid := q } p w).2 := by
  refine ⟨?_, rfl, rfl⟩
  intro r1 r2 hr
  simp only [List.mem_cons, Prod.mk.injEq, List.mem_singleton, List.mem_nil_iff, or_false]
    at hr
  rcases hr with ⟨hr1, hr2⟩ | ⟨hr1, hr2⟩ | ⟨hr1, hr2⟩ | ⟨hr1, hr2⟩ | ⟨hr1, hr2⟩ | ⟨hr1, hr2⟩ | ⟨hr1, hr2⟩ | ⟨hr1, hr2⟩ | ⟨hr1, hr2⟩ | ⟨hr1, hr2⟩ | ⟨hr1, hr2⟩ | ⟨hr1, hr2⟩ | ⟨hr1, hr2⟩
  · obtain ⟨w1, h1, h2⟩ := send2Bytes_handle host dgus q a v w
    exact ⟨w1, congrArg logOf (hr1.trans h1), congrArg logOf (hr2.trans h2)⟩
  · obtain ⟨w1, h1, h2⟩ := send2Bytes_handle host dgus q a (toUnsigned 2 x) w
    exact ⟨w1, congrArg logOf (hr1.trans h1), congrArg logOf (hr2.trans h2)⟩
  · obtain ⟨w1, h1, h2⟩ := send2Bytes_handle host dgus q ((a + 0x03) % 65536) v w
    exact ⟨w1, congrArg logOf (hr1.trans h1), congrArg logOf (hr2.trans h2)⟩
  · obtain ⟨w1, h1, h2⟩ := send2Bytes_handle host dgus q a v w
    exact ⟨w1, congrArg logOf (hr1.trans h1), congrArg logOf (hr2.trans h2)⟩
  · obtain ⟨w1, h1, h2⟩ := send2Bytes_handle host dgus q a (toUnsigned 2 x) w
    exact ⟨w1, congrArg logOf (hr1.trans h1), congrArg logOf (hr2.trans h2)⟩
  · obtain ⟨w1, h1, h2⟩ := send4Bytes_handle host dgus q a (toUnsigned 4 x) w
    exact ⟨w1, congrArg logOf (hr1.trans h1), congrArg logOf (hr2.trans h2)⟩
  · obtain ⟨w1, h1, h2⟩ := send8Bytes_handle host dgus q a (toUnsigned 8 x) w
    exact ⟨w1, congrArg logOf (hr1.trans h1), congrArg logOf (hr2.trans h2)⟩
  · obtain ⟨w1, h1, h2⟩ := send4Bytes_handle host dgus q a v w
    exact ⟨w1, congrArg logOf (hr1.trans h1), congrArg logOf (hr2.trans h2)⟩
  · obtain ⟨w1, h1, h2⟩ := send8Bytes_handle host dgus q a v w
    exact ⟨w1, congrArg logOf (hr1.trans h1), congrArg logOf (hr2.trans h2)⟩
  · obtain ⟨w1, h1, h2⟩ := textDisplay_handle dgus q a textcode len hlen w
    exact ⟨w1, congrArg logOf (hr1.trans h1), congrArg logOf (hr2.trans h2)⟩
  · obtain ⟨w1, h1, h2⟩ := send2Bytes_handle host dgus q ((a + 0x03) % 65536) v w
    exact ⟨w1, congrArg logOf (hr1.trans h1), congrArg logOf (hr2.trans h2)⟩
  · obtain ⟨w1, h1, h2⟩ := send2Bytes_handle host dgus q ((a + 0x0A) % 65536) v w
    exact ⟨w1, congrArg logOf (hr1.trans h1), congrArg logOf (hr2.trans h2)⟩
  · obtain ⟨w1, h1, h2⟩ := send2Bytes_handle host dgus q 0x00A0 (v >>> 3) w
    exact ⟨w1, congrArg logOf (hr1.trans h1), congrArg logOf (hr2.trans h2)⟩

/-- Witness of C15: recording sessions with cached page ids 1 and 2 log the same calls for
an icon write, for the reset and for the switch to page 3. -/
theorem C15_stateless_witness :
    (∃ log : List Event,
      logOf (VarIconSetID Endian.little (recorder "" 1) 0x2000 0x0041 []) = some log ∧
      logOf (VarIconSetID Endian.little (recorder "" 2) 0x2000 0x0041 []) = some log) ∧
    (DGUS_Reset (recorder "" 1) []).2 = (DGUS_Reset (recorder "" 2) []).2 ∧
    (DGUS_PicSet (recorder "" 1) 3 []).2 = (DGUS_PicSet (recorder "" 2) 3 []).2 :=
  have h := C15_stateless Endian.little (recorder "" 1) [] 2 0x2000 0x0041 (-1)
    [0x68, 0x69] 2 (by decide) 3
  ⟨h.1 _ _ (List.mem_cons_self _ _), h.2.1, h.2.2⟩

/-! ## The two literal frames and the frame builder -/

theorem picSet_payload (p : Nat) (hp : p ≤ 0xFFFF) :
    (nativeBytes Endian.little 4 (0x5A010000 + p)).reverse =
      [0x5A, 0x01, (p >>> 8) &&& 0xFF, p &&& 0xFF] := by
  rw [shift_mask_eq, mask_eq]
  simp only [nativeBytes, leBytes, List.reverse_cons, List.reverse_nil, List.nil_append,
    List.cons_append, List.cons.injEq, and_true]
  refine ⟨?_, ?_, ?_, ?_⟩ <;> omega

/-- C16: on a little-endian host the frame builder reproduces both hand-written frames.
The 4-byte write of `0x55AA5AA5` at address `0x0004` sends exactly the 10 bytes that
`DGUS_Reset` sends, and for every page id `p` the 4-byte write of `0x5A010000 + p` at
address `0x0084` sends exactly the 10 bytes that `DGUS_PicSet` sends. -/
theorem C16_literal_frames_agree {W : Type} (dgus : DGUS_Display_t W) (w : W) (p : Nat)
    (hp : p ≤ 0xFFFF) :
    (∃ frame : List Nat,
      _Send4Bytes Endian.little dgus 0x0004 0x55AA5AA5 w =
        some (dgus, dgus.DGUS_SerialSend frame w) ∧
      DGUS_Reset dgus w = (dgus, dgus.DGUS_DelyMs 3000 (dgus.DGUS_SerialSend frame w)) ∧
      frame = [0x5A, 0xA5, 0x07, 0x82, 0x00, 0x04, 0x55, 0xAA, 0x5A, 0xA5]) ∧
    (∃ frame : List Nat,
      _Send4Bytes Endian.little dgus 0x0084 (0x5A010000 + p) w =
        some (dgus, dgus.DGUS_SerialSend frame w) ∧
      DGUS_PicSet dgus p w = ({ dgus with picid := p }, dgus.DGUS_SerialSend frame w) ∧
      frame = [0x5A, 0xA5, 0x07, 0x82, 0x00, 0x84, 0x5A, 0x01, (p >>> 8) &&& 0xFF,
        p &&& 0xFF]) := by
  constructor
  · refine ⟨[0x5A, 0xA5, 0x07, 0x82, 0x00, 0x04, 0x55, 0xAA, 0x5A, 0xA5], ?_, rfl, rfl⟩
    rw [send4Bytes_eq]
    rfl
  · refine ⟨[0x5A, 0xA5, 0x07, 0x82, 0x00, 0x84, 0x5A, 0x01, (p >>> 8) &&& 0xFF,
      p &&& 0xFF], ?_, ?_, rfl⟩
    · rw [send4Bytes_eq, picSet_payload p hp]
      rfl
    · simp [DGUS_PicSet, and_255_mod]

/-- Witness of C16: page id `0x0103` with the recording transport. -/
theorem C16_literal_frames_agree_witness :
    ∃ frame : List Nat,
      _Send4Bytes Endian.little (recorder "" 0) 0x0084 (0x5A010000 + 0x0103) [] =
        some (recorder "" 0, [Event.send frame]) ∧
      DGUS_PicSet (recorder "" 0) 0x0103 [] = (recorder "" 0x0103, [Event.send frame]) ∧
      frame = [0x5A, 0xA5, 0x07, 0x82, 0x00, 0x84, 0x5A, 0x01, 0x01, 0x03] :=
  (C16_literal_frames_agree (recorder "" 0) [] 0x0103 (by decide)).2

/-! ## Indexed accesses of the frame builder -/

theorem joinLoopTraced_fst (data : List Nat) (size : Nat) :
    ∀ (fuel i : Nat) (tx : List Nat) (log : List Access),
      (joinLoopTraced data size fuel i tx log).map Prod.fst = joinLoop data size fuel i tx := by
  intro fuel
  induction fuel with
  | zero => intro i tx log; rfl
  | succ k ih =>
    intro i tx log
    simp only [joinLoopTraced, joinLoop]
    split
    · cases readByte data (((size : Int) - 7) - (i : Int)) with
      | none => rfl
      | some b =>
        dsimp only
        cases writeByte tx (i + 6) b with
        | none => rfl
        | some tx1 => exact ih (i + 1) tx1 _
    · rfl

theorem map_fst_bind {α β γ : Type} (x : Option α) (f : α → Option (β × γ))
    (g : α → Option β) (h : ∀ a, (f a).map Prod.fst = g a) :
    (x >>= f).map Prod.fst = x >>= g := by
  cases x with
  | none => rfl
  | some a => exact h a

theorem joinDataFramesTraced_fst (tx_data data : List Nat) (addr size : Nat) :
    (_JoinDataFramesTraced tx_data addr data size).map Prod.fst =
      _JoinDataFrames tx_data addr data size := by
  unfold _JoinDataFramesTraced _JoinDataFrames
  refine map_fst_bind _ _ _ fun t0 => ?_
  refine map_fst_bind _ _ _ fun t1 => ?_
  refine map_fst_bind _ _ _ fun t2 => ?_
  refine map_fst_bind _ _ _ fun t3 => ?_
  refine map_fst_bind _ _ _ fun t4 => ?_
  refine map_fst_bind _ _ _ fun t5 => ?_
  exact joinLoopTraced_fst data size 256 0 t5 _

/-- The accesses of the loop from iteration `i` on, for a frame size `size`. -/
theorem joinLoopTraced_log (data : List Nat) (size : Nat) :
    ∀ (fuel i : Nat) (tx : List Nat) (log : List Access) (out : List Nat)
      (log1 : List Access),
      joinLoopTraced data size fuel i tx log = some (out, log1) →
      log1 = log ++ (List.range (size - 6 - i)).flatMap
        (fun k => [Access.load (((size : Int) - 7) - ((i + k : Nat) : Int)),
          Access.store (i + k + 6)]) := by
  intro fuel
  induction fuel with
  | zero => intro i tx log out log1 h; simp [joinLoopTraced] at h
  | succ n ih =>
    intro i tx log out log1 h
    simp only [joinLoopTraced] at h
    split at h
    · rename_i hcond
      cases hr : readByte data (((size : Int) - 7) - (i : Int)) with
      | none => rw [hr] at h; simp at h
      | some b =>
        rw [hr] at h
        dsimp only at h
        cases hw : writeByte tx (i + 6) b with
        | none => rw [hw] at h; simp at h
        | some tx1 =>
          rw [hw] at h
          dsimp only at h
          have hi := ih (i + 1) tx1 _ out log1 h
          have hk : size - 6 - i = (size - 6 - (i + 1)) + 1 := by omega
          rw [hi, hk, List.range_succ_eq_map, List.flatMap_cons, List.flatMap_map]
          simp only [List.append_assoc, Nat.add_zero, List.cons_append, List.nil_append,
            List.singleton_append, Function.comp_def, Nat.succ_eq_add_one]
          congr 3
          apply List.flatMap_congr
          intro k _
          have e1 : i + 1 + k = i + (k + 1) := by omega
          rw [e1]
    · rename_i hcond
      have hz : size - 6 - i = 0 := by omega
      simp only [Option.some.injEq, Prod.mk.injEq] at h
      rw [hz, ← h.2]
      simp

theorem joinDataFramesTraced_log (tx_data data : List Nat) (addr size : Nat)
    (out : List Nat) (log : List Access)
    (h : _JoinDataFramesTraced tx_data addr data size = some (out, log)) :
    log = [Access.store 0, Access.store 1, Access.store 2, Access.store 3, Access.store 4,
        Access.store 5] ++
      (List.range (size - 6)).flatMap
        (fun k => [Access.load (((size : Int) - 7) - (k : Int)), Access.store (k + 6)]) := by
  simp only [_JoinDataFramesTraced, bind, Option.bind_eq_some] at h
  obtain ⟨t0, _, t1, _, t2, _, t3, _, t4, _, t5, _, h⟩ := h
  have hl := joinLoopTraced_log data size 256 0 t5 _ out log h
  simpa using hl

theorem loads_accesses (l : List Nat) (g : Nat → Int) (s : Nat → Nat) :
    loads (l.flatMap fun k => [Access.load (g k), Access.store (s k)]) = l.map g := by
  induction l with
  | nil => rfl
  | cons k ks ih =>
    simp only [loads] at ih
    simp [loads, List.filterMap_append, ih]

theorem stores_accesses (l : List Nat) (g : Nat → Int) (s : Nat → Nat) :
    stores (l.flatMap fun k => [Access.load (g k), Access.store (s k)]) = l.map s := by
  induction l with
  | nil => rfl
  | cons k ks ih =>
    simp only [stores] at ih
    simp [stores, List.filterMap_append, ih]

/-- C17: for every frame size `s` with `6 ≤ s ≤ 255`, a buffer of `s` bytes and a payload
of `s - 6` bytes, `_JoinDataFrames` returns, so every indexed access is in bounds. The loop
body runs exactly `s - 6` times; its loads are at `(s - 7) - i` for `i = 0, ..., s - 7`,
each in `[0, s - 7]`; its stores are at `i + 6`, each in `[6, s - 1]`; over the whole call
the stores go to the positions `0, 1, ..., s - 1`, each exactly once; and byte 2 of the
result is `s - 3`, not wrapped. For `s = 6` there is no load at all. -/
theorem C17_accesses_in_bounds (tx_data data : List Nat) (addr s : Nat)
    (h6 : 6 ≤ s) (h255 : s ≤ 255) (htx : tx_data.length = s) (hd : data.length = s - 6) :
    ∃ (out : List Nat) (log : List Access),
      _JoinDataFramesTraced tx_data addr data s = some (out, log) ∧
      _JoinDataFrames tx_data addr data s = some out ∧
      (loads log).length = s - 6 ∧
      loads log = (List.range (s - 6)).map (fun i : Nat => ((s : Int) - 7) - (i : Int)) ∧
      (∀ idx, idx ∈ loads log → 0 ≤ idx ∧ idx ≤ (s : Int) - 7 ∧ idx < (data.length : Int)) ∧
      stores log = List.range s ∧
      (∀ i, i < s - 6 → (stores log)[6 + i]? = some (i + 6) ∧ 6 ≤ i + 6 ∧ i + 6 ≤ s - 1) ∧
      (∀ pos, pos < s → (stores log).count pos = 1) ∧
      (∀ idx, idx ∈ stores log → idx < tx_data.length) ∧
      out.length = s ∧
      out[2]? = some (s - 3) ∧ s - 3 < 256 ∧
      (s = 6 → loads log = []) := by
  have hspec := joinDataFrames_spec tx_data data addr s h255 htx (by omega)
  have hfst := joinDataFramesTraced_fst tx_data data addr s
  rw [hspec] at hfst
  cases htr : _JoinDataFramesTraced tx_data addr data s with
  | none => rw [htr] at hfst; simp at hfst
  | some r =>
    obtain ⟨out, log⟩ := r
    rw [htr] at hfst
    simp only [Option.map_some', Option.some.injEq] at hfst
    have hlog := joinDataFramesTraced_log tx_data data addr s out log htr
    have hloads : loads log =
        (List.range (s - 6)).map (fun i : Nat => ((s : Int) - 7) - (i : Int)) := by
      rw [hlog]
      unfold loads
      rw [List.filterMap_append]
      exact loads_accesses (List.range (s - 6)) _ _
    have hstores : stores log = List.range s := by
      rw [hlog]
      unfold stores
      rw [List.filterMap_append]
      have h1 := stores_accesses (List.range (s - 6))
        (fun k => ((s : Int) - 7) - (k : Int)) (fun k => k + 6)
      unfold stores at h1
      rw [h1]
      have hs : s = 6 + (s - 6) := by omega
      conv_rhs => rw [hs, List.range_add]
      have hmap : List.map (fun k => k + 6) (List.range (s - 6))
          = List.map (fun x => 6 + x) (List.range (s - 6)) :=
        List.map_congr_left fun k _ => Nat.add_comm k 6
      rw [hmap]
      rfl
    refine ⟨out, log, rfl, by rw [hspec, hfst], ?_, hloads, ?_, hstores, ?_, ?_, ?_, ?_, ?_,
      by omega, ?_⟩
    · rw [hloads]; simp
    · intro idx hidx
      rw [hloads] at hidx
      simp only [List.mem_map, List.mem_range] at hidx
      obtain ⟨i, hi, rfl⟩ := hidx
      omega
    · intro i hi
      rw [hstores, List.getElem?_range (by omega)]
      exact ⟨by rw [Nat.add_comm], by omega, by omega⟩
    · intro pos hpos
      rw [hstores]
      exact List.count_eq_one_of_mem (List.nodup_range s) (List.mem_range.mpr hpos)
    · intro idx hidx
      rw [hstores] at hidx
      rw [htx]
      exact List.mem_range.mp hidx
    · rw [hfst]; simp; omega
    · rw [hfst]
      simp
    · intro hs6
      rw [hloads, hs6]
      rfl

/-- Witness of C17: frame size 8, a zeroed buffer of 8 bytes and the payload `34 12`. -/
theorem C17_accesses_in_bounds_witness :
    ∃ (out : List Nat) (log : List Access),
      _JoinDataFramesTraced (localBuffer 8) 0x1000 [0x34, 0x12] 8 = some (out, log) ∧
      _JoinDataFrames (localBuffer 8) 0x1000 [0x34, 0x12] 8 = some out ∧
      (loads log).length = 8 - 6 ∧
      loads log = (List.range (8 - 6)).map (fun i : Nat => ((8 : Nat) : Int) - 7 - (i : Int)) ∧
      (∀ idx, idx ∈ loads log →
        0 ≤ idx ∧ idx ≤ ((8 : Nat) : Int) - 7 ∧ idx < (([0x34, 0x12] : List Nat).length : Int)) ∧
      stores log = List.range 8 ∧
      (∀ i, i < 8 - 6 → (stores log)[6 + i]? = some (i + 6) ∧ 6 ≤ i + 6 ∧ i + 6 ≤ 8 - 1) ∧
      (∀ pos, pos < 8 → (stores log).count pos = 1) ∧
      (∀ idx, idx ∈ stores log → idx < (localBuffer 8).length) ∧
      out.length = 8 ∧
      out[2]? = some (8 - 3) ∧ 8 - 3 < 256 ∧
      (8 = 6 → loads log = []) :=
  C17_accesses_in_bounds (localBuffer 8) [0x34, 0x12] 0x1000 8 (by decide) (by decide)
    (by decide) (by decide)

/-! ## Injectivity of the encoding -/

theorem nativeBytes_injective (host : Endian) (n x y : Nat) (hx : x < 256 ^ n)
    (hy : y < 256 ^ n) (h : nativeBytes host n x = nativeBytes host n y) : x = y := by
  have hx2 := ofNativeBytes_nativeBytes host n x
  have hy2 := ofNativeBytes_nativeBytes host n y
  rw [h, hy2, Nat.mod_eq_of_lt hx, Nat.mod_eq_of_lt hy] at hx2
  exact hx2.symm

theorem address_bytes_injective (a1 a2 : Nat) (h1 : a1 ≤ 0xFFFF) (h2 : a2 ≤ 0xFFFF)
    (hhi : (a1 >>> 8) &&& 0xFF = (a2 >>> 8) &&& 0xFF) (hlo : a1 &&& 0xFF = a2 &&& 0xFF) :
    a1 = a2 := by
  rw [shift_mask_eq, shift_mask_eq] at hhi
  rw [mask_eq, mask_eq] at hlo
  omega

theorem frame_eq_iff (host : Endian) (n k a1 a2 v1 v2 : Nat) (ha1 : a1 ≤ 0xFFFF)
    (ha2 : a2 ≤ 0xFFFF) (hv1 : v1 < 256 ^ n) (hv2 : v2 < 256 ^ n) :
    [0x5A, 0xA5, k, 0x82, (a1 >>> 8) &&& 0xFF, a1 &&& 0xFF] ++ (nativeBytes host n v1).reverse
        = [0x5A, 0xA5, k, 0x82, (a2 >>> 8) &&& 0xFF, a2 &&& 0xFF]
          ++ (nativeBytes host n v2).reverse ↔
      a1 = a2 ∧ v1 = v2 := by
  constructor
  · intro h
    simp only [List.cons_append, List.nil_append, List.cons.injEq, true_and,
      List.reverse_inj] at h
    exact ⟨address_bytes_injective a1 a2 ha1 ha2 h.1 h.2.1,
      nativeBytes_injective host n v1 v2 hv1 hv2 h.2.2⟩
  · rintro ⟨rfl, rfl⟩
    rfl

theorem recorded_send_inj (f1 f2 : List Nat) :
    (some [Event.send f1] : Option (List Event)) = some [Event.send f2] ↔ f1 = f2 := by
  simp

theorem recorded_send2 (host : Endian) (a v : Nat) :
    logOf (_Send2Bytes host (recorder "" 0) a v []) =
      some [Event.send ([0x5A, 0xA5, 5, 0x82, (a >>> 8) &&& 0xFF, a &&& 0xFF]
        ++ (nativeBytes host 2 v).reverse)] :=
  congrArg logOf (send2Bytes_eq host (recorder "" 0) a v [])

theorem recorded_send4 (host : Endian) (a v : Nat) :
    logOf (_Send4Bytes host (recorder "" 0) a v []) =
      some [Event.send ([0x5A, 0xA5, 7, 0x82, (a >>> 8) &&& 0xFF, a &&& 0xFF]
        ++ (nativeBytes host 4 v).reverse)] :=
  congrArg logOf (send4Bytes_eq host (recorder "" 0) a v [])

theorem recorded_send8 (host : Endian) (a v : Nat) :
    logOf (_Send8Bytes host (recorder "" 0) a v []) =
      some [Event.send ([0x5A, 0xA5, 11, 0x82, (a >>> 8) &&& 0xFF, a &&& 0xFF]
        ++ (nativeBytes host 8 v).reverse)] :=
  congrArg logOf (send8Bytes_eq host (recorder "" 0) a v [])

theorem frames_of_different_width (host : Endian) (n m k l a1 a2 v1 v2 : Nat) (hnm : n ≠ m) :
    (some [Event.send ([0x5A, 0xA5, k, 0x82, (a1 >>> 8) &&& 0xFF, a1 &&& 0xFF]
        ++ (nativeBytes host n v1).reverse)] : Option (List Event)) ≠
      some [Event.send ([0x5A, 0xA5, l, 0x82, (a2 >>> 8) &&& 0xFF, a2 &&& 0xFF]
        ++ (nativeBytes host m v2).reverse)] := by
  intro h
  have hf := (recorded_send_inj _ _).mp h
  have hl := congrArg List.length hf
  simp only [List.length_append, List.length_cons, List.length_nil, List.length_reverse,
    nativeBytes_length] at hl
  omega

/-- C18: for a fixed payload width the encoding is injective. Two 2-byte writes put the
same frame on the wire exactly when they have the same address and the same 16-bit value,
and likewise for 4-byte and 8-byte writes. Writes of different widths never put the same
frame on the wire: the frames have 8, 10 and 14 bytes and their length bytes are 5, 7 and
11. -/
theorem C18_frame_injective (host : Endian) (a1 a2 : Nat)
    (ha1 : a1 ≤ 0xFFFF) (ha2 : a2 ≤ 0xFFFF)
    (x1 x2 y1 y2 z1 z2 : Nat) (hx1 : x1 < 2 ^ 16) (hx2 : x2 < 2 ^ 16)
    (hy1 : y1 < 2 ^ 32) (hy2 : y2 < 2 ^ 32) (hz1 : z1 < 2 ^ 64) (hz2 : z2 < 2 ^ 64) :
    (logOf (_Send2Bytes host (recorder "" 0) a1 x1 []) =
        logOf (_Send2Bytes host (recorder "" 0) a2 x2 []) ↔ a1 = a2 ∧ x1 = x2) ∧
    (logOf (_Send4Bytes host (recorder "" 0) a1 y1 []) =
        logOf (_Send4Bytes host (recorder "" 0) a2 y2 []) ↔ a1 = a2 ∧ y1 = y2) ∧
    (logOf (_Send8Bytes host (recorder "" 0) a1 z1 []) =
        logOf (_Send8Bytes host (recorder "" 0) a2 z2 []) ↔ a1 = a2 ∧ z1 = z2) ∧
    logOf (_Send2Bytes host (recorder "" 0) a1 x1 []) ≠
      logOf (_Send4Bytes host (recorder "" 0) a2 y2 []) ∧
    logOf (_Send2Bytes host (recorder "" 0) a1 x1 []) ≠
      logOf (_Send8Bytes host (recorder "" 0) a2 z2 []) ∧
    logOf (_Send4Bytes host (recorder "" 0) a1 y1 []) ≠
      logOf (_Send8Bytes host (recorder "" 0) a2 z2 []) ∧
    (∃ f2 f4 f8 : List Nat,
      logOf (_Send2Bytes host (recorder "" 0) a1 x1 []) = some [Event.send f2] ∧
      logOf (_Send4Bytes host (recorder "" 0) a1 y1 []) = some [Event.send f4] ∧
      logOf (_Send8Bytes host (recorder "" 0) a1 z1 []) = some [Event.send f8] ∧
      f2.length = 8 ∧ f4.length = 10 ∧ f8.length = 14 ∧
      f2[2]? = some 5 ∧ f4[2]? = some 7 ∧ f8[2]? = some 11) := by
  refine ⟨?_, ?_, ?_, ?_, ?_, ?_, ?_⟩
  · rw [recorded_send2, recorded_send2, recorded_send_inj]
    exact frame_eq_iff host 2 5 a1 a2 x1 x2 ha1 ha2 (by omega) (by omega)
  · rw [recorded_send4, recorded_send4, recorded_send_inj]
    exact frame_eq_iff host 4 7 a1 a2 y1 y2 ha1 ha2 (by omega) (by omega)
  · rw [recorded_send8, recorded_send8, recorded_send_inj]
    exact frame_eq_iff host 8 11 a1 a2 z1 z2 ha1 ha2 (by omega) (by omega)
  · rw [recorded_send2, recorded_send4]
    exact frames_of_different_width host 2 4 5 7 a1 a2 x1 y2 (by decide)
  · rw [recorded_send2, recorded_send8]
    exact frames_of_different_width host 2 8 5 11 a1 a2 x1 z2 (by decide)
  · rw [recorded_send4, recorded_send8]
    exact frames_of_different_width host 4 8 7 11 a1 a2 y1 z2 (by decide)
  · refine ⟨_, _, _, recorded_send2 host a1 x1, recorded_send4 host a1 y1,
      recorded_send8 host a1 z1, ?_, ?_, ?_, ?_, ?_, ?_⟩
    · simp [nativeBytes_length]
    · simp [nativeBytes_length]
    · simp [nativeBytes_length]
    · rfl
    · rfl
    · rfl

/-- Witness of C18: addresses `0x1000` and `0x1001`, values differing in one bit, on a
little-endian host. -/
theorem C18_frame_injective_witness :
    (logOf (_Send2Bytes Endian.little (recorder "" 0) 0x1000 0x0001 []) =
        logOf (_Send2Bytes Endian.little (recorder "" 0) 0x1001 0x0001 []) ↔
      0x1000 = 0x1001 ∧ 0x0001 = 0x0001) ∧
    (logOf (_Send4Bytes Endian.little (recorder "" 0) 0x1000 0x00010000 []) =
        logOf (_Send4Bytes Endian.little (recorder "" 0) 0x1001 0x00010001 []) ↔
      0x1000 = 0x1001 ∧ 0x00010000 = 0x00010001) :=
  have h := C18_frame_injective Endian.little 0x1000 0x1001 (by decide) (by decide)
    0x0001 0x0001 0x00010000 0x00010001 0x0100000000000000 0x0100000000000001
    (by decide) (by decide) (by decide) (by decide) (by decide) (by decide)
  ⟨h.1, h.2.1⟩

end DGUS
